import Mathlib

/-!
Verification development for the Justia-Lawyer-Scraper repository.

The repository ships several variants of the same Apify actor:
* `src/src/main.js` — two concatenated programs; the first (lines 1-848) is the
  HTTP-first `CheerioCrawler` program whose `requestHandler` drives extraction,
  deduplication, budget enforcement, enrichment and pagination; the second
  (lines 850-1375) is a Playwright/Camoufox program.
* `src/unnamed/part_001` — a sequential while-loop driver with an HTTP-first
  cascade and a one-way browser (rendered) fallback on blocking.
* `src/unnamed/part_002` — a browser-first Playwright program.

This file shallowly embeds the decision logic of those programs.  Pure
JavaScript data manipulation is translated directly; the external collaborators
(cheerio DOM queries, the WHATWG `URL` resolver, `JSON.parse`, the HTTP and
rendering transports, the crawlee request queue, and wall-clock timestamps) are
modelled at their interfaces: a page is represented by the values the
collaborators would hand back to the scraper's own code.  JavaScript dynamic
semantics that the scraper's own code depends on (truthiness, `||` chains,
optional chaining, property access on `null`, `String.prototype.includes`
versus the absence of `includes` on numbers, `Array.prototype.join` coercion)
are modelled faithfully on an inductive JSON value type.
-/

/- ### String utilities (kernel-computable replacements for the JS string ops) -/

/-- Lower-casing, modelling `String.prototype.toLowerCase` for ASCII data. -/
def jsLower (s : String) : String := String.mk (s.data.map Char.toLower)

/-- Drop leading whitespace from a character list. -/
def trimLead : List Char → List Char
  | [] => []
  | c :: cs => if c.isWhitespace then trimLead cs else c :: cs

/-- Model of `String.prototype.trim`. -/
def jsTrim (s : String) : String :=
  String.mk ((trimLead (trimLead s.data.reverse).reverse))

/-- Check whether `needle` occurs at the head of `hay`. -/
def subAt : List Char → List Char → Bool
  | [], _ => true
  | _ :: _, [] => false
  | n :: ns, h :: hs => n == h && subAt ns hs

/-- Model of `String.prototype.includes`: substring containment. -/
def containsSub (hay needle : String) : Bool :=
  go hay.data
where
  go : List Char → Bool
    | [] => needle.data.isEmpty
    | c :: cs => subAt needle.data (c :: cs) || go cs

/-- Model of `String.prototype.startsWith`. -/
def startsW (s pre : String) : Bool := subAt pre.data s.data

/-- Split a character list at a separator character. -/
def splitCharList (sep : Char) : List Char → List (List Char)
  | [] => [[]]
  | c :: cs =>
    let rest := splitCharList sep cs
    if c == sep then [] :: rest
    else match rest with
      | [] => [[c]]
      | r :: rs => (c :: r) :: rs

/-- Model of `String.prototype.split` with a one-character separator. -/
def jsSplit (s : String) (sep : Char) : List String :=
  (splitCharList sep s.data).map String.mk

/-- Remove the first occurrence of `pat` from `s`,
modelling `String.prototype.replace(pat, '')`. -/
def removeFirst (s pat : String) : String :=
  String.mk (go s.data)
where
  go : List Char → List Char
    | [] => []
    | c :: cs => if subAt pat.data (c :: cs) then cs.drop (pat.data.length - 1)
                 else c :: go cs

/-- Deduplicate keeping the first occurrence of each element,
modelling `[...new Set(xs)]`. -/
def dedupKeepFirstGo (seen : List String) : List String → List String
  | [] => []
  | x :: xs =>
    if x ∈ seen then dedupKeepFirstGo seen xs
    else x :: dedupKeepFirstGo (x :: seen) xs

/-- Deduplicate a list keeping first occurrences (`[...new Set(xs)]`). -/
def dedupKeepFirst (l : List String) : List String := dedupKeepFirstGo [] l

/-- Model of JavaScript `parseInt(t, 10)` on trimmed text followed by a
`Number.isFinite` check: an optional sign followed by at least one leading
digit yields that integer; anything else yields `none` (`NaN`). -/
def jsParseInt (s : String) : Option Int :=
  let t := (trimLead s.data)
  match t with
  | '-' :: rest => (digitsVal rest).map (fun n => -(n : Int))
  | '+' :: rest => (digitsVal rest).map (fun n => (n : Int))
  | _ => (digitsVal t).map (fun n => (n : Int))
where
  digitsVal (l : List Char) : Option Nat :=
    let ds := l.takeWhile Char.isDigit
    if ds.isEmpty then none
    else some (ds.foldl (fun acc c => acc * 10 + (c.toNat - '0'.toNat)) 0)

/- ### JavaScript value model -/

/-- JavaScript values as the scraper sees them: JSON data (`null`, booleans,
numbers, strings, arrays, objects) plus `undefined`, which property access on
a missing key produces.  `JSON.parse` output never contains `undef`. -/
inductive Json where
  | undef
  | null
  | bool (b : Bool)
  | num (n : Int)
  | str (s : String)
  | arr (elems : List Json)
  | obj (fields : List (String × Json))

/-- JavaScript runtime failures raised by the embedded code. -/
inductive JsErr where
  | typeError
deriving DecidableEq

instance {ε α : Type} [DecidableEq ε] [DecidableEq α] : DecidableEq (Except ε α) :=
  fun x y =>
    match x, y with
    | .ok a, .ok b =>
      if h : a = b then .isTrue (by rw [h]) else .isFalse (by simp [h])
    | .error a, .error b =>
      if h : a = b then .isTrue (by rw [h]) else .isFalse (by simp [h])
    | .ok _, .error _ => .isFalse (by simp)
    | .error _, .ok _ => .isFalse (by simp)

/-- JavaScript truthiness. -/
def Json.truthy : Json → Bool
  | .undef => false
  | .null => false
  | .bool b => b
  | .num n => n != 0
  | .str s => s != ""
  | .arr _ => true
  | .obj _ => true

/-- Test for `typeof v === 'object'` (true for objects, arrays and `null`). -/
def Json.typeofObject : Json → Bool
  | .null => true
  | .arr _ => true
  | .obj _ => true
  | _ => false

mutual
/-- String coercion, modelling JavaScript `String(v)` / template literals. -/
def Json.toStr : Json → String
  | .undef => "undefined"
  | .null => "null"
  | .bool true => "true"
  | .bool false => "false"
  | .num n => toString n
  | .str s => s
  | .arr xs => String.intercalate "," (Json.joinElems xs)
  | .obj _ => "[object Object]"

/-- Elementwise coercion used by `Array.prototype.join`, under which `null`
and `undefined` become the empty string. -/
def Json.joinElems : List Json → List String
  | [] => []
  | .null :: xs => "" :: Json.joinElems xs
  | .undef :: xs => "" :: Json.joinElems xs
  | x :: xs => x.toStr :: Json.joinElems xs
end

/-- Model of `Array.prototype.join(sep)`. -/
def jsJoin (xs : List Json) (sep : String) : String :=
  String.intercalate sep (Json.joinElems xs)

mutual
/-- Node count of a JSON value, used as structural fuel. -/
def Json.size : Json → Nat
  | .arr xs => 1 + Json.sizeList xs
  | .obj fs => 1 + Json.sizeFields fs
  | _ => 1

def Json.sizeList : List Json → Nat
  | [] => 0
  | x :: xs => x.size + Json.sizeList xs

def Json.sizeFields : List (String × Json) → Nat
  | [] => 0
  | (_, v) :: fs => v.size + Json.sizeFields fs
end

/-- Property access on a value that is known not to be `null`/`undefined`
(primitives are boxed and yield `undefined`; objects look the key up). -/
def Json.getTotal : Json → String → Json
  | .obj fields, k =>
    match fields.find? (fun p => p.1 == k) with
    | some p => p.2
    | none => .undef
  | _, _ => (.undef)

/-- Plain property access `v.k`, which throws a `TypeError` when the receiver
is `null` or `undefined`. -/
def Json.getProp : Json → String → Except JsErr Json
  | .undef, _ => .error .typeError
  | .null, _ => .error .typeError
  | j, k => .ok (j.getTotal k)

/-- Optional-chain access `v?.k`, which short-circuits to `undefined`. -/
def Json.optProp : Json → String → Json
  | .undef, _ => .undef
  | .null, _ => .undef
  | j, k => j.getTotal k

/-- Model of the JavaScript `a || b` value choice. -/
def Json.orJ (a b : Json) : Json := if a.truthy then a else b

/-- Coercion for the ubiquitous `v₁ || v₂ || ''` pattern: the first truthy
value as a string, otherwise the empty string. -/
def jsStrOr (v : Json) : String := if v.truthy then v.toStr else ""

/-- Strict equality of a value with a string literal (`v === 'lit'`). -/
def Json.strictEqStr : Json → String → Bool
  | .str s, t => s == t
  | _, _ => false

/-- Model of `v.includes(needle)`: strings do substring search, arrays do
SameValueZero membership, and every other receiver lacks an `includes`
method, so the call raises a `TypeError`. -/
def jsIncludes (v : Json) (needle : String) : Except JsErr Bool :=
  match v with
  | .str s => .ok (containsSub s needle)
  | .arr xs => .ok (xs.any (fun e => e.strictEqStr needle))
  | _ => .error .typeError

/-- Short-circuiting `v.includes(k₁) || v.includes(k₂) || ...`. -/
def jsIncludesAny (v : Json) : List String → Except JsErr Bool
  | [] => .ok false
  | k :: ks => do
    let b ← jsIncludes v k
    if b then pure true else jsIncludesAny v ks

/-- Model of `for (const x of v)`: arrays iterate their elements, strings
iterate their characters, and other values are not iterable. -/
def jsIterate : Json → Except JsErr (List Json)
  | .arr xs => .ok xs
  | .str s => .ok (s.data.map (fun c => .str (String.mk [c])))
  | _ => .error .typeError

/-- Site origin constant `JUSTIA_BASE` from the sources. -/
def JUSTIA_BASE : String := "https://www.justia.com"

/-- Model of `absoluteUrl` (src/src/main.js lines 46-53): a falsy input yields
the empty string; otherwise the WHATWG `new URL(u, base)` collaborator is
modelled by passing through inputs that already carry a scheme, resolving
root-relative inputs against the site origin, and appending other relative
inputs to the base. -/
def absoluteUrl (u base : String) : String :=
  if u = "" then ""
  else if containsSub u "://" then u
  else if startsW u "/" then JUSTIA_BASE ++ u
  else base ++ "/" ++ u

/-- The `absoluteUrl` helper applied to a raw JavaScript value (the source
passes property-access results straight in; `new URL` coerces them). -/
def absoluteUrlJ (v : Json) (base : String) : String :=
  if v.truthy then absoluteUrl v.toStr base else ""

/- ### The record shape -/

/-- Directory entry produced by every extractor (§3 of the design).  The
`scrapedAt` timestamp is produced by the wall-clock collaborator
(`new Date().toISOString()`) and is omitted from the embedding; values the
source stores raw are coerced to their JavaScript string form. -/
structure Record where
  name : String := ""
  firmName : String := ""
  location : String := ""
  address : String := ""
  phone : String := ""
  email : String := ""
  website : String := ""
  practiceAreas : String := ""
  description : String := ""
  yearsLicensed : String := ""
  biography : Option String := none
  education : Option (List String) := none
  barAdmissions : Option (List String) := none
  languages : Option (List String) := none
deriving DecidableEq

/- ### JSON-LD extractor (src/src/main.js lines 181-270) -/

/-- Truthy-strings filter-and-join used for `[x, y].filter(Boolean).join(', ')`. -/
def filterTruthyJoin (l : List Json) : String :=
  String.intercalate ", " ((l.filter Json.truthy).map Json.toStr)

/-- Fueled embedding of `extractLawyersFromJsonLd` (src/src/main.js lines
181-270).  The recursion through `ItemList`/`itemListElement` descends
strictly into the input value, so `Json.size data` fuel suffices for every
input; the fuel-exhaustion branch is unreachable from the wrapper below.
Errors model JavaScript `TypeError`s raised on adversarial shapes (for
example `(42).includes` when `@type` is a number). -/
def extractLawyersFromJsonLdF (pageUrl : String) : Nat → Json → Except JsErr (List Record)
  | 0, _ => .ok []
  | fuel+1, data => do
    -- const items = Array.isArray(data) ? data : data['@graph'] || [data];
    let items ← match data with
      | .arr xs => Except.ok xs
      | _ => do
        let g ← data.getProp "@graph"
        if g.truthy then jsIterate g else pure [data]
    items.foldlM (fun acc item => do
      -- if (!item || typeof item !== 'object') continue;
      if !item.truthy || !item.typeofObject then pure acc else do
      -- if (item['@type'] === 'ItemList' && item.itemListElement) { ... }
      let ile := item.getTotal "itemListElement"
      if (item.getTotal "@type").strictEqStr "ItemList" && ile.truthy then
        let listItems := match ile with
          | .arr xs => xs
          | v => [v]
        listItems.foldlM (fun acc2 listItem => do
          -- const nestedItem = listItem.item || listItem;
          let li ← listItem.getProp "item"
          let nested := li.orJ listItem
          if nested.truthy then do
            let ex ← extractLawyersFromJsonLdF pageUrl fuel nested
            pure (acc2 ++ ex)
          else pure acc2) acc
      else do
      -- const type = item['@type'] || '';
      let ty := (item.getTotal "@type").orJ (.str "")
      let isLawyer ← jsIncludesAny ty
        ["Attorney", "Lawyer", "Person", "LegalService", "Organization"]
      if !isLawyer && !(item.getTotal "name").truthy then pure acc else do
      -- const name = item.name || item.givenName || '';
      let name := ((item.getTotal "name").orJ (item.getTotal "givenName")).orJ (.str "")
      if !name.truthy then pure acc else do
      let profileUrl := absoluteUrlJ ((item.getTotal "url").orJ (item.getTotal "@id")) pageUrl
      let practiceAreas : String :=
        let ka := item.getTotal "knowsAbout"
        if ka.truthy then
          match ka with
          | .arr xs => jsJoin xs ", "
          | v => v.toStr
        else
          let area := (item.getTotal "areaServed").orJ (item.getTotal "serviceArea")
          if area.truthy then
            match area with
            | .arr xs => jsJoin xs ", "
            | v => v.toStr
          else ""
      let location : String :=
        match item.getTotal "address" with
        | .str s => s
        | addr =>
          if (addr.optProp "addressLocality").truthy || (addr.optProp "addressRegion").truthy then
            filterTruthyJoin [addr.getTotal "addressLocality", addr.getTotal "addressRegion"]
          else jsStrOr (item.getTotal "location")
      let languages : Option (List String) :=
        match item.getTotal "knowsLanguage" with
        | .arr xs => some (xs.map Json.toStr)
        | .str s => some ((jsSplit s ',').map jsTrim)
        | _ => none
      let rec0 : Record :=
        { name := if name.truthy then name.toStr else "Unknown Name"
          firmName := jsStrOr ((((item.getTotal "worksFor").optProp "name").orJ
            ((item.getTotal "affiliation").optProp "name")).orJ
            ((item.getTotal "memberOf").optProp "name"))
          location := location
          address :=
            match item.getTotal "address" with
            | .str s => s
            | addr =>
              let sa := addr.optProp "streetAddress"
              if sa.truthy then sa.toStr else location
          phone := jsStrOr ((item.getTotal "telephone").orJ (item.getTotal "phone"))
          email := jsStrOr (item.getTotal "email")
          website := profileUrl
          practiceAreas := practiceAreas
          description := jsStrOr (item.getTotal "description")
          yearsLicensed := jsStrOr (item.getTotal "yearsInPractice")
          biography := none
          education := none
          barAdmissions := none
          languages := languages }
      pure (acc ++ [rec0])) []

/-- Embedding of `extractLawyersFromJsonLd` at its natural fuel. -/
def extractLawyersFromJsonLd (data : Json) (pageUrl : String) : Except JsErr (List Record) :=
  extractLawyersFromJsonLdF pageUrl (Json.size data) data

example : extractLawyersFromJsonLd
    (.obj [("@type", .str "Attorney"), ("name", .str "Alice"),
           ("url", .str "/lawyers/alice-1")]) "https://www.justia.com/lawyers/x" =
    .ok [{ name := "Alice", website := "https://www.justia.com/lawyers/alice-1" }] := by
  decide

example : extractLawyersFromJsonLd
    (.obj [("@type", .num 42), ("name", .str "X")]) "https://www.justia.com/lawyers/x" =
    .error .typeError := by
  decide

/- ### Generic API-payload walk (src/src/main.js lines 76-178) -/

/-- Model of the `name.length < 2` check applied to a raw value: strings and
arrays have a numeric `length`; on other values `length` is `undefined` and
`undefined < 2` is false. -/
def jsLenLt2 : Json → Bool
  | .str s => s.length < 2
  | .arr xs => xs.length < 2
  | _ => false

/-- Raw-value coercion to a string list for fields the source stores as-is
(`education`, `schools`, ...); arrays map elementwise, other values become a
one-element list of their string form. -/
def jsToStrList : Json → List String
  | .arr xs => xs.map Json.toStr
  | v => [v.toStr]

/-- Mutable state of `extractLawyersFromApiPayload`: the `results` array and
the extractor-local `seen` key set. -/
structure ApiWalkSt where
  results : List Record := []
  seen : List String := []
deriving DecidableEq

/-- Embedding of `pushCandidate` inside `extractLawyersFromApiPayload`
(src/src/main.js lines 80-155). -/
def pushCandidate (pageUrl : String) (node : Json) (st : ApiWalkSt) : ApiWalkSt :=
  -- const name = node.name || node.fullName || node.title || '';
  let nameV := (((node.getTotal "name").orJ (node.getTotal "fullName")).orJ
    (node.getTotal "title")).orJ (.str "")
  if !nameV.truthy || jsLenLt2 nameV then st
  else
    let profileUrl := absoluteUrlJ ((((node.getTotal "url").orJ
      (node.getTotal "profileUrl")).orJ (node.getTotal "link")).orJ
      ((node.getTotal "website").orJ (node.getTotal "permalink"))) pageUrl
    let locationV := ((((node.getTotal "location").orJ (node.getTotal "city")).orJ
      ((node.getTotal "address").optProp "city")).orJ
      (((node.getTotal "address").optProp "addressLocality").orJ
      ((node.getTotal "address").optProp "region"))).orJ
      ((node.getTotal "state").orJ (.str ""))
    let practiceAreas : String :=
      let areas := ((node.getTotal "practiceAreas").orJ (node.getTotal "specialties")).orJ
        ((node.getTotal "categories").orJ (node.getTotal "tags"))
      if !areas.truthy then ""
      else match areas with
        | .arr xs => String.intercalate ", " (xs.map Json.toStr)
        | .str s => s
        | _ => ""
    let firmName := jsStrOr (((((node.getTotal "firmName").orJ
      (node.getTotal "company")).orJ (node.getTotal "organization")).orJ
      ((node.getTotal "orgName").orJ (node.getTotal "office"))).orJ
      (node.getTotal "lawFirm"))
    let contactPhone : Json :=
      if (node.getTotal "contact").typeofObject then (node.getTotal "contact").optProp "phone"
      else .str ""
    let phone := jsStrOr ((((((node.getTotal "phone").orJ
      (node.getTotal "telephone")).orJ (node.getTotal "tel")).orJ
      (node.getTotal "contactPhone")).orJ (node.getTotal "mobile")).orJ contactPhone)
    let contactEmail : Json :=
      if (node.getTotal "contact").typeofObject then (node.getTotal "contact").optProp "email"
      else .str ""
    let email := jsStrOr ((((node.getTotal "email").orJ (node.getTotal "mail")).orJ
      (node.getTotal "contactEmail")).orJ contactEmail)
    -- const dedupKey = `${name}|${profileUrl || node.id || node.slug || location}`;
    let pick : Json := (((Json.str profileUrl).orJ (node.getTotal "id")).orJ
      (node.getTotal "slug")).orJ locationV
    let dedupKey := nameV.toStr ++ "|" ++ pick.toStr
    if dedupKey ∈ st.seen then st
    else
      let bioV := (node.getTotal "biography").orJ (node.getTotal "bio")
      let eduV := (node.getTotal "education").orJ (node.getTotal "schools")
      let barV := (node.getTotal "barAdmissions").orJ (node.getTotal "admissions")
      let langV := node.getTotal "languages"
      let rec0 : Record :=
        { name := nameV.toStr
          firmName := firmName
          location := jsStrOr locationV
          address :=
            match node.getTotal "address" with
            | .str s => s
            | addr => jsStrOr (((addr.optProp "streetAddress").orJ locationV).orJ (.str ""))
          phone := phone
          email := email
          website := profileUrl
          practiceAreas := practiceAreas
          description := jsStrOr ((node.getTotal "description").orJ (node.getTotal "summary"))
          yearsLicensed := jsStrOr ((node.getTotal "yearsLicensed").orJ (node.getTotal "experience"))
          biography := if bioV.truthy then some bioV.toStr else none
          education := if eduV.truthy then some (jsToStrList eduV) else none
          barAdmissions := if barV.truthy then some (jsToStrList barV) else none
          languages := if langV.truthy then some (jsToStrList langV) else none }
      { results := st.results ++ [rec0], seen := dedupKey :: st.seen }

mutual
/-- Embedding of the recursive `walk` inside `extractLawyersFromApiPayload`
(src/src/main.js lines 157-174): native recursion over the parsed JSON tree
(its only call sites feed it `JSON.parse` output, which is a finite tree;
the identity-graph behaviour of this same function is studied separately
below on a node-store representation). -/
def apiWalk (pageUrl : String) : Json → ApiWalkSt → ApiWalkSt
  | .arr xs, st => apiWalkList pageUrl xs st
  | .obj fields, st =>
    let node := Json.obj fields
    let hasName := (((node.getTotal "name").orJ (node.getTotal "fullName")).orJ
      (node.getTotal "title")).truthy
    let looksLikeLawyer := hasName || fields.any (fun p =>
      let k := jsLower p.1
      containsSub k "attorney" || containsSub k "lawyer" || containsSub k "profile")
    let st1 := if looksLikeLawyer then pushCandidate pageUrl node st else st
    apiWalkVals pageUrl fields st1
  | _, st => st

def apiWalkList (pageUrl : String) : List Json → ApiWalkSt → ApiWalkSt
  | [], st => st
  | x :: xs, st => apiWalkList pageUrl xs (apiWalk pageUrl x st)

def apiWalkVals (pageUrl : String) : List (String × Json) → ApiWalkSt → ApiWalkSt
  | [], st => st
  | (_, v) :: fs, st => apiWalkVals pageUrl fs (apiWalk pageUrl v st)
end

/-- Embedding of `extractLawyersFromApiPayload` (src/src/main.js lines 76-178). -/
def extractLawyersFromApiPayload (payload : Json) (pageUrl : String) : List Record :=
  (apiWalk pageUrl payload {}).results

/-- Embedding of `extractLawyersFromNextData` (src/src/main.js lines 283-290).
The `#__NEXT_DATA__` script lookup and `safeJsonParse` collaborators are
modelled by an `Option Json`: `none` when the script is absent or does not
parse, `some` of the parsed value otherwise. -/
def extractLawyersFromNextData (nextData : Option Json) (pageUrl : String) : List Record :=
  match nextData with
  | none => []
  | some d => if d.truthy then extractLawyersFromApiPayload d pageUrl else []

/- ### Heuristic HTML extractor (src/src/main.js lines 294-410) -/

/-- Selector results inside one listing card, as the cheerio collaborator
hands them to the extractor's own code.  Text fields are the raw `.text()`
results (the extractor applies `.trim()` itself); `telHref`/`mailtoHref` are
the raw anchor `href` attributes, empty when no such anchor exists.
`licensedMatch` is the result of the `Licensed ... years` regex collaborator
(note the source's regex literal double-escapes its backslashes, so on
ordinary text it cannot match). -/
structure Card where
  nameText : String := ""
  firmText : String := ""
  street : String := ""
  locality : String := ""
  region : String := ""
  postal : String := ""
  locationText : String := ""
  telText : String := ""
  telHref : String := ""
  phoneClassText : String := ""
  mailtoHref : String := ""
  emailItemprop : String := ""
  practiceTexts : List String := []
  descText : String := ""
  licensedMatch : Option String := none
  languageTexts : List String := []
deriving DecidableEq

/-- One `<a>` element: attributes plus, for profile links, the enclosing
card found by `closest(...)` (`none` when no container matches). -/
structure Anchor where
  href : String := ""
  text : String := ""
  rel : String := ""
  ariaLabel : String := ""
  card : Option Card := none
deriving DecidableEq

/-- First-nonempty-string choice, modelling `s₁ || s₂` on strings. -/
def strOr (a b : String) : String := if a = "" then b else a

/-- Join the nonempty strings of a list, modelling
`parts.filter(Boolean).join(sep)`. -/
def joinNE (l : List String) (sep : String) : String :=
  String.intercalate sep (l.filter (fun s => s ≠ ""))

/-- Extractor-internal filter keeping the first record per nonempty
`website` (src/src/main.js lines 400-406). -/
def dedupByWebsiteGo (seen : List String) : List Record → List Record
  | [] => []
  | r :: rest =>
    if r.website = "" || r.website ∈ seen then dedupByWebsiteGo seen rest
    else r :: dedupByWebsiteGo (r.website :: seen) rest

/-- Filter keeping the first record per nonempty `website`. -/
def dedupByWebsite (l : List Record) : List Record := dedupByWebsiteGo [] l

/-- Embedding of `extractListingViaHtml` (src/src/main.js lines 294-410):
anchors whose `href` starts with `/lawyers/` and has at least two nonempty
path segments, sitting inside a recognized card container, become candidate
records; candidates are then de-duplicated by `website`. -/
def extractListingViaHtml (anchors : List Anchor) (pageUrl : String) : List Record :=
  let candidates := anchors.foldl (fun acc a =>
    if !(startsW a.href "/lawyers/") then acc
    else
      let href := a.href
      let pathParts := (jsSplit href '/').filter (fun p => p ≠ "")
      if pathParts.length < 2 || !(containsSub href "/lawyers/") then acc
      else match a.card with
        | none => acc
        | some card =>
          let profileUrl := absoluteUrl href pageUrl
          let name := strOr (jsTrim card.nameText) (strOr (jsTrim a.text) "Unknown Name")
          let firmName := jsTrim card.firmText
          let street := jsTrim card.street
          let locality := jsTrim card.locality
          let region := jsTrim card.region
          let postal := jsTrim card.postal
          let address := joinNE [street, locality, region, postal] ", "
          let location := strOr (jsTrim card.locationText)
            (strOr (joinNE [locality, region] ", ") address)
          let phone := strOr (jsTrim card.telText)
            (strOr (jsTrim (removeFirst card.telHref "tel:")) (jsTrim card.phoneClassText))
          let email := strOr (jsTrim (removeFirst card.mailtoHref "mailto:"))
            (jsTrim card.emailItemprop)
          let practiceAreas := String.intercalate ", "
            ((dedupKeepFirst ((card.practiceTexts.map jsTrim).filter
              (fun t => t ≠ "" && t.length > 2 && t.length < 100))).take 10)
          let description := jsTrim card.descText
          let yearsLicensed := (card.licensedMatch).getD ""
          let langs := (card.languageTexts.map jsTrim).filter (fun t => t ≠ "")
          let r : Record :=
            { name := name
              firmName := firmName
              location := location
              address := strOr address location
              phone := phone
              email := email
              website := profileUrl
              practiceAreas := practiceAreas
              description := description
              yearsLicensed := yearsLicensed
              biography := none
              education := none
              barAdmissions := none
              languages := if langs ≠ [] then some langs else none }
          acc ++ [r]) []
  dedupByWebsite candidates

/- ### Blocking detectors -/

/-- Embedding of `isBlockedHtml` (src/src/main.js lines 63-73): the ENTIRE
body is lower-cased and searched for five challenge phrases; there is no
prefix bound. -/
def isBlockedHtmlMain (html : String) : Bool :=
  if html = "" then false
  else
    let lower := jsLower html
    containsSub lower "just a moment" ||
    containsSub lower "verify you are human" ||
    containsSub lower "cf-browser-verification" ||
    containsSub lower "access denied" ||
    containsSub lower "security of your connection"

/-- Embedding of `isBlockedHtml` (src/unnamed/part_001 lines 32-41): only the
first 5000 characters of the body, lower-cased, are searched for four
challenge phrases. -/
def isBlockedHtmlLoop (html : String) : Bool :=
  if html = "" then false
  else
    let sample := jsLower (String.mk (html.data.take 5000))
    containsSub sample "just a moment" ||
    containsSub sample "checking your browser" ||
    containsSub sample "cf-browser-verification" ||
    containsSub sample "cloudflare"

/-- HTTP fetch result as `fetchHttp` returns it (src/unnamed/part_001
lines 51-71). -/
structure FetchResult where
  url : String := ""
  statusCode : Nat := 0
  body : String := ""
deriving DecidableEq

/-- Blocked classification of the part_001 main loop (line 539):
`isBlockedHtml(r.body) || r.statusCode === 403 || 429 || 503`. -/
def blockedLoop (r : FetchResult) : Bool :=
  isBlockedHtmlLoop r.body || r.statusCode == 403 || r.statusCode == 429 ||
  r.statusCode == 503

/-- Blocked classification of the main.js requestHandler (line 689):
`statusCode === 403 || isBlockedHtml(htmlSnapshot)`. -/
def blockedMain (statusCode : Nat) (body : String) : Bool :=
  statusCode == 403 || isBlockedHtmlMain body

/- ### Pagination resolver -/

/-- Pagination container view: the trimmed-able text of the first
current/active element (if any) and the anchors inside the container. -/
structure Pagination where
  currentText : Option String := none
  anchors : List Anchor := []
deriving DecidableEq

/-- Rule (a): href of the first `a[rel="next"]` anchor, when nonempty. -/
def ruleRelNext (anchors : List Anchor) : Option String :=
  (anchors.find? (fun a => a.rel == "next")).bind
    (fun a => if a.href ≠ "" then some a.href else none)

/-- Next-text tokens of the main.js resolver (line 423). -/
def isNextTokenMain (t : String) : Bool :=
  t == "next" || t == "next ›" || t == "›" || t == ">" || containsSub t "next page"

/-- Next-text tokens of the part_001 resolver (line 320), which has no
`next page` substring case. -/
def isNextTokenLoop (t : String) : Bool :=
  t == "next" || t == "next ›" || t == "›" || t == ">"

/-- Rule (b): href of the first anchor whose trimmed lower-cased text is a
next token, when nonempty. -/
def ruleNextText (tok : String → Bool) (anchors : List Anchor) : Option String :=
  (anchors.find? (fun a => tok (jsLower (jsTrim a.text)))).bind
    (fun a => if a.href ≠ "" then some a.href else none)

/-- Rule (c): href of the first anchor whose `aria-label` contains `Next` or
`next` (the selector `a[aria-label*="Next"], a[aria-label*="next"]`). -/
def ruleAriaNext (anchors : List Anchor) : Option String :=
  (anchors.find? (fun a => containsSub a.ariaLabel "Next" || containsSub a.ariaLabel "next")).bind
    (fun a => if a.href ≠ "" then some a.href else none)

/-- Rule (d): inside the pagination container, parse the current element's
text as an integer N and take the href of the first anchor whose text parses
to exactly N+1. -/
def rulePageIncrement (pag : Option Pagination) : Option String :=
  match pag with
  | none => none
  | some p =>
    match p.currentText with
    | none => none
    | some ct =>
      match jsParseInt (jsTrim ct) with
      | none => none
      | some n =>
        (p.anchors.find? (fun a => jsParseInt (jsTrim a.text) == some (n + 1))).bind
          (fun a => if a.href ≠ "" then some a.href else none)

/-- Embedding of `findNextPageUrl` (src/src/main.js lines 413-450): the four
rules are evaluated in order and the first hit is absolutized; otherwise the
empty string is returned. -/
def findNextPageUrl (anchors : List Anchor) (pag : Option Pagination) (pageUrl : String) : String :=
  match ruleRelNext anchors with
  | some h => absoluteUrl h pageUrl
  | none =>
  match ruleNextText isNextTokenMain anchors with
  | some h => absoluteUrl h pageUrl
  | none =>
  match ruleAriaNext anchors with
  | some h => absoluteUrl h pageUrl
  | none =>
  match rulePageIncrement pag with
  | some h => absoluteUrl h pageUrl
  | none => ""

/-- Embedding of `findNextPageUrl` (src/unnamed/part_001 lines 312-345); it
differs from the main.js one only in the rule (b) token set and in which
containers the selector collaborator recognizes. -/
def findNextPageUrlLoop (anchors : List Anchor) (pag : Option Pagination) (pageUrl : String) : String :=
  match ruleRelNext anchors with
  | some h => absoluteUrl h pageUrl
  | none =>
  match ruleNextText isNextTokenLoop anchors with
  | some h => absoluteUrl h pageUrl
  | none =>
  match ruleAriaNext anchors with
  | some h => absoluteUrl h pageUrl
  | none =>
  match rulePageIncrement pag with
  | some h => absoluteUrl h pageUrl
  | none => ""

/- ### Deduplication ledgers -/

/-- Identity key of the main.js requestHandler dedup filter (line 740):
`lawyer.website || name|location|firmName`. -/
def dedupKeyMain (r : Record) : String :=
  strOr r.website (r.name ++ "|" ++ r.location ++ "|" ++ r.firmName)

/-- Embedding of the main.js dedup-and-budget admission loop (src/src/main.js
lines 737-751): duplicates are skipped; once the budget is full the loop
breaks; otherwise the record is admitted, its key remembered and the running
total advanced.  Returns (admitted records, seen keys, total). -/
def admitLoopMain (maxLawyers : Nat) : List String → Nat → List Record →
    List Record × List String × Nat
  | seen, total, [] => ([], seen, total)
  | seen, total, l :: rest =>
    let key := dedupKeyMain l
    if key ∈ seen then admitLoopMain maxLawyers seen total rest
    else if maxLawyers > 0 && total ≥ maxLawyers then ([], seen, total)
    else
      let out := admitLoopMain maxLawyers (key :: seen) (total + 1) rest
      (l :: out.1, out.2.1, out.2.2)

/-- Embedding of the part_001 main-loop admission filter (src/unnamed/part_001
lines 596-604): records with an empty `website` are skipped outright, seen
websites are skipped, and after a push the loop breaks once `remaining` is
reached.  `count` is the number already pushed. -/
def admitLoopPart1 (maxLawyers remaining : Nat) : List String → Nat → List Record →
    List Record × List String
  | seen, _, [] => ([], seen)
  | seen, count, l :: rest =>
    if l.website = "" then admitLoopPart1 maxLawyers remaining seen count rest
    else if l.website ∈ seen then admitLoopPart1 maxLawyers remaining seen count rest
    else if maxLawyers > 0 && count + 1 ≥ remaining then ([l], l.website :: seen)
    else
      let out := admitLoopPart1 maxLawyers remaining (l.website :: seen) (count + 1) rest
      (l :: out.1, out.2)

/- ### The main.js CheerioCrawler run -/

/-- Fetch transports: `lightweight` is the HTTP transport (got-scraping /
CheerioCrawler), `rendered` is the Playwright/Camoufox browser. -/
inductive Mode where
  | lightweight
  | rendered
deriving DecidableEq

/-- One fetch performed during a run: the URL, the transport used, and
whether the result was classified blocked by the code doing the fetch. -/
structure Event where
  url : String
  mode : Mode
  blocked : Bool
deriving DecidableEq

/-- View of one listing page as the collaborators hand it to the main.js
requestHandler: HTTP status and raw body, the parse results of the
`application/ld+json` scripts, the parse result of `#__NEXT_DATA__`, the
anchors of the document (with their enclosing cards for profile links), and
the pagination container. -/
structure Page where
  statusCode : Nat := 200
  body : String := ""
  ldScripts : List (Option Json) := []
  nextData : Option Json := none
  anchors : List Anchor := []
  pagination : Option Pagination := none

/-- Embedding of `extractLawyersFromJsonLdHtml` (src/src/main.js lines
272-281): each parsed `ld+json` block that is truthy feeds the JSON-LD
extractor and the results accumulate; a raised `TypeError` propagates (there
is no try/catch here). -/
def extractLawyersFromJsonLdHtml (scripts : List (Option Json)) (pageUrl : String) :
    Except JsErr (List Record) :=
  scripts.foldlM (fun acc sc =>
    match sc with
    | some d =>
      if d.truthy then do
        let ex ← extractLawyersFromJsonLd d pageUrl
        pure (acc ++ ex)
      else pure acc
    | none => pure acc) []

/-- Embedding of the main.js requestHandler extraction stage (src/src/main.js
lines 703-724): when the body is nonempty ALL THREE extractors run and their
outputs are concatenated — JSON-LD first, then `#__NEXT_DATA__`, then
heuristic HTML.  There is no early exit. -/
def lawyersMain (p : Page) (pageUrl : String) : Except JsErr (List Record) :=
  if p.body = "" then pure []
  else do
    let ld ← extractLawyersFromJsonLdHtml p.ldScripts pageUrl
    let nd := extractLawyersFromNextData p.nextData pageUrl
    let ht := extractListingViaHtml p.anchors pageUrl
    pure (ld ++ nd ++ ht)

/-- Run-lifetime state of the main.js program: the dedup ledger, the stored
total, the per-page stored batches, the processed-page counter and the fetch
trace. -/
structure MainState where
  seen : List String := []
  total : Nat := 0
  batches : List (List Record) := []
  pagesProcessed : Nat := 0
  trace : List Event := []

/-- Embedding of the main.js CheerioCrawler run (src/src/main.js lines
589-832).  Every fetch uses the lightweight transport — this program has no
browser.  A blocked classification with `retryCount < 2` throws, which makes
the crawlee collaborator re-fetch the same URL with `retryCount + 1`
(`maxRequestRetries: 4` permits this); at `retryCount ≥ 2` the handler falls
through and processes the page.  A JavaScript error escaping an extractor
fails the request, modelled as run end.  Enrichment replaces each admitted
record by an enriched one without changing admission or counts, so it is not
modelled here (see `enrichProfileWithDetailsHttp`).  After storing, the
handler returns early on a met record or page budget; otherwise the resolved
next URL is enqueued only when nonempty and different from the current URL.
`fuel` bounds the recursion depth of the embedding only. -/
def runMainGo (env : String → Page) (maxLawyers maxPages : Nat) :
    Nat → String → Nat → MainState → MainState
  | 0, _, _, s => s
  | fuel+1, url, retry, s =>
    let p := env url
    let blocked := blockedMain p.statusCode p.body
    let s1 := { s with trace := s.trace ++ [⟨url, .lightweight, blocked⟩] }
    if blocked && retry < 2 then runMainGo env maxLawyers maxPages fuel url (retry + 1) s1
    else
      match lawyersMain p url with
      | .error _ => s1
      | .ok lawyers =>
        let adm := admitLoopMain maxLawyers s1.seen s1.total lawyers
        let s2 : MainState :=
          { seen := adm.2.1
            total := adm.2.2
            batches := if adm.1 ≠ [] then s1.batches ++ [adm.1] else s1.batches
            pagesProcessed := s1.pagesProcessed + 1
            trace := s1.trace }
        if maxLawyers > 0 && s2.total ≥ maxLawyers then s2
        else if maxPages > 0 && s2.pagesProcessed ≥ maxPages then s2
        else
          let nextUrl := findNextPageUrl p.anchors p.pagination url
          if nextUrl ≠ "" && nextUrl ≠ url then
            runMainGo env maxLawyers maxPages fuel nextUrl 0 s2
          else s2

/- ### The part_001 sequential run with browser fallback -/

/-- View of one page as fetched by the rendered (browser) fallback: the
embedded-JSON and heuristic-HTML extraction results for that page and the
pagination markup. -/
structure RenderView where
  emb : List Record := []
  html : List Record := []
  anchors : List Anchor := []
  pagination : Option Pagination := none

/-- View of one page as fetched by the lightweight transport in the part_001
main loop: the raw fetch result, the three extractor results (JSON-API
discovery, embedded JSON, heuristic HTML) and the pagination markup. -/
structure LoopView where
  fetch : FetchResult := {}
  api : List Record := []
  emb : List Record := []
  html : List Record := []
  anchors : List Anchor := []
  pagination : Option Pagination := none

/-- Embedding of the part_001 strategy cascade (src/unnamed/part_001 lines
555-576): JSON-API first, then embedded JSON, then HTML, each guarded by the
previous result being empty (and by not being blocked). -/
def cascadeLoop (blocked : Bool) (api emb html : List Record) : List Record :=
  let l1 := if !blocked then api else []
  let l2 := if l1.isEmpty && !blocked then emb else l1
  if l2.isEmpty && !blocked then html else l2

/-- The `filter` with in-place `seen.add` of the browser fallback
(src/unnamed/part_001 lines 455-460): keeps records with a new nonempty
website, extending the fallback-local ledger as it goes. -/
def fallbackFilter (seen : List String) : List Record → List Record × List String
  | [] => ([], seen)
  | l :: rest =>
    if l.website = "" then fallbackFilter seen rest
    else if l.website ∈ seen then fallbackFilter seen rest
    else
      let out := fallbackFilter (l.website :: seen) rest
      (l :: out.1, out.2)

/-- Fetch trace of `runBrowserFallback` (src/unnamed/part_001 lines 410-488):
a fresh PlaywrightCrawler processes up to `cap` requests
(`maxRequestsPerCrawl`), each fetch rendered; per page it tries embedded
JSON then HTML, filters against a fallback-local ledger, stores a slice
bounded by the remaining budget, returns once `seen.size` meets the budget,
and otherwise enqueues the resolved next URL when nonempty (the request
queue's uniqueKey dedup is not modelled; only fetch modes and order matter
here).  The fallback never runs the blocked classifier. -/
def runFallbackEvents (renv : String → RenderView) (maxLawyers : Nat) :
    Nat → String → List String → List Event
  | 0, _, _ => []
  | cap+1, url, seen =>
    let v := renv url
    let lawyers := if !v.emb.isEmpty then v.emb else v.html
    let flt := fallbackFilter seen lawyers
    let ev : Event := ⟨url, .rendered, false⟩
    if maxLawyers > 0 && flt.2.length ≥ maxLawyers then [ev]
    else
      let next := findNextPageUrlLoop v.anchors v.pagination url
      if next ≠ "" then ev :: runFallbackEvents renv maxLawyers cap next flt.2
      else [ev]

/-- Remaining budget handed to the browser fallback:
`maxX > 0 ? Math.max(0, maxX - used) : 0`. -/
def remainingCap (maxX used : Nat) : Nat := if maxX > 0 then maxX - used else 0

/-- The `remaining` cap of the part_001 admission stage:
`maxLawyers > 0 ? Math.max(0, maxLawyers - totalScraped) : lawyers.length`. -/
def remainingLoop (maxLawyers total n : Nat) : Nat :=
  if maxLawyers > 0 then maxLawyers - total else n

/-- Substitute for the JavaScript `n || d` default on numbers (0 picks `d`). -/
def jsOrNat (n d : Nat) : Nat := if n = 0 then d else n

/-- Fetch trace of the part_001 main loop (src/unnamed/part_001 lines
490-657).  Each iteration checks the page and record budgets, fetches with
the lightweight transport and classifies the result with `blockedLoop`; on
the FIRST blocked classification it launches the rendered browser fallback
starting at the same URL and then breaks — the loop never resumes.  On a
usable page the cascade runs, the admission filter stores records, and the
loop continues at the resolved next URL, stopping when it is empty.  (The
`consecutiveBlocked` counter of lines 540-541 is updated by the source but
never read for a decision, so it is omitted.)  `fuel` bounds the embedding's
recursion only. -/
def runLoopEvents (env : String → LoopView) (renv : String → RenderView)
    (maxLawyers maxPages : Nat) :
    Nat → String → Nat → Nat → List String → List Event
  | 0, _, _, _, _ => []
  | fuel+1, url, pagesProcessed, total, seen =>
    if maxPages > 0 && pagesProcessed ≥ maxPages then []
    else if maxLawyers > 0 && total ≥ maxLawyers then []
    else
      let v := env url
      let blocked := blockedLoop v.fetch
      if blocked then
        ⟨url, .lightweight, true⟩ ::
          runFallbackEvents renv (remainingCap maxLawyers total)
            (min 20 (max 1 (jsOrNat (remainingCap maxPages (pagesProcessed + 1)) 5))) url []
      else
        let lawyers := cascadeLoop blocked v.api v.emb v.html
        let remaining := remainingLoop maxLawyers total lawyers.length
        let adm := admitLoopPart1 maxLawyers remaining seen 0 lawyers
        let total' := total + adm.1.length
        let ev : Event := ⟨url, .lightweight, false⟩
        if maxLawyers > 0 && total' ≥ maxLawyers then [ev]
        else
          let next := findNextPageUrlLoop v.anchors v.pagination url
          if next = "" then [ev]
          else ev :: runLoopEvents env renv maxLawyers maxPages fuel next
            (pagesProcessed + 1) total' adm.2

/- ### Profile enrichment (src/src/main.js lines 481-587) -/

/-- Choice between optional strings under JavaScript `||`, where `null`,
`undefined` and the empty string are falsy. -/
def jsOrOptStr (a b : Option String) : Option String :=
  match a with
  | some s => if s = "" then b else a
  | none => b

/-- Choice between optional values under JavaScript `||`, where only
`null`/`undefined` are falsy (arrays, even empty ones, are truthy). -/
def jsOrOpt {α : Type} (a b : Option α) : Option α :=
  match a with
  | some _ => a
  | none => b

/-- Project a string field out of `ld?.f`: `undefined` (hence falsy) when
there was no JSON-LD record. -/
def ldStr (o : Option Record) (f : Record → String) : String :=
  match o with
  | some r => f r
  | none => ""

/-- Selector results on a profile detail page, as cheerio hands them to
`enrichProfileWithDetailsHttp`; `ldScripts` are the parse results of the
detail page's `ld+json` blocks. -/
structure DetailView where
  mailtoHref : String := ""
  emailItemprop : String := ""
  bioText : String := ""
  educationItems : List String := []
  admissionItems : List String := []
  languageItems : List String := []
  practiceTexts : List String := []
  firmText : String := ""
  telText : String := ""
  telHref : String := ""
  telItemprop : String := ""
  street : String := ""
  locality : String := ""
  region : String := ""
  postal : String := ""
  locationText : String := ""
  licensedMatch : Option String := none
  ldScripts : List (Option Json) := []

def enrichMerge (profileUrl : String) (d : DetailView) (baseData : Record)
    (ld : Option Record) : Record :=
  let email : Option String :=
    match strOr (jsTrim (removeFirst d.mailtoHref "mailto:")) (jsTrim d.emailItemprop) with
    | "" => none
    | s => some s
  let biography : Option String :=
    match jsTrim d.bioText with
    | "" => none
    | s => some s
  let education := (d.educationItems.map jsTrim).filter (fun t => t ≠ "")
  let barAdmissions := (d.admissionItems.map jsTrim).filter (fun t => t ≠ "")
  let languages := (d.languageItems.map jsTrim).filter (fun t => t ≠ "")
  let practiceAreas := String.intercalate ", "
    ((dedupKeepFirst ((d.practiceTexts.map jsTrim).filter
      (fun t => t ≠ "" && t.length > 2 && t.length < 100))).take 10)
  let firmName := strOr (jsTrim d.firmText) baseData.firmName
  let phone := strOr (jsTrim d.telText)
    (strOr (jsTrim (removeFirst d.telHref "tel:"))
    (strOr (jsTrim d.telItemprop) baseData.phone))
  let street := jsTrim d.street
  let locality := jsTrim d.locality
  let region := jsTrim d.region
  let postal := jsTrim d.postal
  let address := strOr (joinNE [street, locality, region, postal] ", ") baseData.address
  let location := strOr (jsTrim d.locationText)
    (strOr (joinNE [locality, region] ", ") baseData.location)
  let yearsLicensed := (d.licensedMatch).getD baseData.yearsLicensed
  let mergedPractice := strOr practiceAreas
    (strOr (ldStr ld (fun r => r.practiceAreas)) baseData.practiceAreas)
  let mergedAddress := strOr address
    (strOr (ldStr ld (fun r => r.address)) baseData.address)
  let mergedLocation := strOr location
    (strOr (ldStr ld (fun r => r.location)) baseData.location)
  let mergedPhone := strOr phone
    (strOr (ldStr ld (fun r => r.phone)) baseData.phone)
  let mergedEmail := strOr (email.getD "")
    (strOr (ldStr ld (fun r => r.email)) baseData.email)
  let mergedFirm := strOr firmName
    (strOr (ldStr ld (fun r => r.firmName)) baseData.firmName)
  let mergedDesc := strOr (biography.getD "")
    (strOr (ldStr ld (fun r => r.description)) baseData.description)
  { baseData with
    email := strOr mergedEmail baseData.email
    phone := mergedPhone
    firmName := mergedFirm
    address := mergedAddress
    location := mergedLocation
    practiceAreas := mergedPractice
    description := strOr mergedDesc baseData.description
    yearsLicensed := yearsLicensed
    biography := jsOrOptStr biography
      (jsOrOptStr (ld.bind (fun r => r.biography)) baseData.biography)
    education := if education ≠ [] then some education
      else jsOrOpt (ld.bind (fun r => r.education)) baseData.education
    barAdmissions := if barAdmissions ≠ [] then some barAdmissions
      else jsOrOpt (ld.bind (fun r => r.barAdmissions)) baseData.barAdmissions
    languages := if languages ≠ [] then some languages
      else jsOrOpt (ld.bind (fun r => r.languages)) baseData.languages }

/-- Embedding of `enrichProfileWithDetailsHttp` (src/src/main.js lines
481-587).  `html` is the raw body the `fetchHtmlWithGot` collaborator
returned (empty on transport failure) and `d` is the cheerio view of it.  An
empty or blocked body returns the base record unchanged; a JavaScript error
raised inside (for example by the JSON-LD extractor) is caught by the
surrounding try/catch and also returns the base record; otherwise the
detail-page fields, the first JSON-LD record of the detail page
(`ldLawyers[0]`) and the base record are merged by `enrichMerge` above.
Note the merge chains there: `phone`, `firmName`, `address`, `location` and
`yearsLicensed` fold the BASE value in before the detail-page JSON-LD is
consulted, while `email`, `practiceAreas`, `description`/`biography` and
the list fields consult the JSON-LD before the base value. -/
def enrichProfileWithDetailsHttp (profileUrl : String) (html : String)
    (d : DetailView) (baseData : Record) : Record :=
  if html = "" || isBlockedHtmlMain html then baseData
  else
    match extractLawyersFromJsonLdHtml d.ldScripts profileUrl with
    | .error _ => baseData
    | .ok ldLawyers => enrichMerge profileUrl d baseData ldLawyers.head?

/- ### Identity-graph model of JavaScript object graphs

`JSON.parse` output is a tree, but the walks below are studied on arbitrary
object GRAPHS (possibly self-referential) because the design note in the
specification concerns exactly that case.  A graph is a store of container
nodes addressed by index; a `GVal.ref` is a pointer into the store, so two
refs with the same index are the SAME container (JavaScript object
identity). -/

/-- A JavaScript value in the graph model: a primitive or a reference to a
container node in the store. -/
inductive GVal where
  | undef
  | null
  | bool (b : Bool)
  | num (n : Int)
  | str (s : String)
  | ref (id : Nat)
deriving DecidableEq

/-- A container node: an object with named fields or an array. -/
inductive GNode where
  | obj (fields : List (String × GVal))
  | arr (elems : List GVal)
deriving DecidableEq

/-- A store of container nodes; a `GVal.ref id` points at entry `id`. -/
abbrev GStore := List GNode

/-- Truthiness in the graph model (containers are always truthy). -/
def gTruthy : GVal → Bool
  | .undef => false
  | .null => false
  | .bool b => b
  | .num n => n != 0
  | .str s => s != ""
  | .ref _ => true

/-- Test for `typeof v === 'object'` in the graph model. -/
def gTypeofObject : GVal → Bool
  | .null => true
  | .ref _ => true
  | _ => false

/-- Dereference a value to its container node, if it is one. -/
def gDeref (store : GStore) : GVal → Option GNode
  | .ref id => store[id]?
  | _ => none

/-- Named property of a container node (arrays have no named data fields). -/
def nodeProp (n : GNode) (k : String) : GVal :=
  match n with
  | .obj fields =>
    match fields.find? (fun p => p.1 == k) with
    | some p => p.2
    | none => .undef
  | .arr _ => (.undef)

/-- Optional-chain property access `v?.k` in the graph model. -/
def gPropV (store : GStore) (v : GVal) (k : String) : GVal :=
  match gDeref store v with
  | some n => nodeProp n k
  | none => (.undef)

/-- JavaScript `a || b` in the graph model. -/
def GVal.gOr (a b : GVal) : GVal := if gTruthy a then a else b

/-- String coercion in the graph model.  Array references are coerced
coarsely (JavaScript joins elements with cycle elision); no claim below
exercises that case. -/
def gToStr (store : GStore) : GVal → String
  | .undef => "undefined"
  | .null => "null"
  | .bool true => "true"
  | .bool false => "false"
  | .num n => toString n
  | .str s => s
  | .ref id =>
    match store[id]? with
    | some (.obj _) => "[object Object]"
    | some (.arr _) => ""
    | none => ""

/-- Coercion for `v₁ || v₂ || ''` chains in the graph model. -/
def gStrOr (store : GStore) (v : GVal) : String :=
  if gTruthy v then gToStr store v else ""

/-- Elementwise `Array.prototype.join` coercion in the graph model. -/
def gJoinElems (store : GStore) : List GVal → List String
  | [] => []
  | .null :: xs => "" :: gJoinElems store xs
  | .undef :: xs => "" :: gJoinElems store xs
  | x :: xs => gToStr store x :: gJoinElems store xs

/-- Model of `Array.prototype.join(sep)` in the graph model. -/
def gJoin (store : GStore) (xs : List GVal) (sep : String) : String :=
  String.intercalate sep (gJoinElems store xs)

/-- The `absoluteUrl` helper applied to a raw graph value. -/
def absoluteUrlG (store : GStore) (v : GVal) (base : String) : String :=
  if gTruthy v then absoluteUrl (gToStr store v) base else ""

/- ### part_001 worklist walk (src/unnamed/part_001 lines 73-142) -/

/-- Per-item record construction of `extractLawyersFromJsonObject`
(src/unnamed/part_001 lines 98-124): an element lacking both a truthy name
and a resolvable profile URL yields no record. -/
def gItemRecord (store : GStore) (pageUrl : String) (item : GVal) : Option Record :=
  let name := ((gPropV store item "name").gOr (gPropV store item "fullName")).gOr
    (gPropV store item "title")
  let profileUrl := ((gPropV store item "url").gOr (gPropV store item "profileUrl")).gOr
    (gPropV store item "link")
  let absoluteProfileUrl := absoluteUrlG store profileUrl pageUrl
  if !gTruthy name && absoluteProfileUrl = "" then none
  else some
    { name := if gTruthy name then gToStr store name else "Unknown Name"
      firmName := gStrOr store (((gPropV store item "firmName").gOr
        (gPropV store item "firm")).gOr
        (gPropV store (gPropV store item "organization") "name"))
      location := gStrOr store (((gPropV store item "location").gOr
        (gPropV store item "city")).gOr (gPropV store item "region"))
      address := gStrOr store (gPropV store item "address")
      phone := gStrOr store ((gPropV store item "phone").gOr (gPropV store item "telephone"))
      email := gStrOr store (gPropV store item "email")
      website := absoluteProfileUrl
      practiceAreas :=
        match gDeref store (gPropV store item "practiceAreas") with
        | some (.arr xs) => gJoin store xs ", "
        | _ => gStrOr store ((gPropV store item "practiceAreas").gOr
            (gPropV store item "specialties"))
      description := gStrOr store ((gPropV store item "description").gOr
        (gPropV store item "bio"))
      yearsLicensed := gStrOr store ((gPropV store item "yearsLicensed").gOr
        (gPropV store item "licensedSince"))
      biography := none
      education := none
      barAdmissions := none
      languages := none }

/-- Records harvested from one visited container node: the fixed key list
(`lawyers`, `attorneys`, `results`, `items`, and the same under `data`) is
filtered for truthiness, each actual array is traversed, and each element is
mapped through `gItemRecord` (src/unnamed/part_001 lines 85-125). -/
def nodeRecords (store : GStore) (pageUrl : String) (node : GNode) : List Record :=
  let arraysToCheck := ([nodeProp node "lawyers", nodeProp node "attorneys",
    nodeProp node "results", nodeProp node "items",
    gPropV store (nodeProp node "data") "lawyers",
    gPropV store (nodeProp node "data") "attorneys",
    gPropV store (nodeProp node "data") "results"]).filter gTruthy
  arraysToCheck.foldl (fun acc v =>
    match gDeref store v with
    | some (.arr items) =>
      acc ++ items.foldl (fun acc2 item =>
        match gItemRecord store pageUrl item with
        | some r => acc2 ++ [r]
        | none => acc2) []
    | _ => acc) []

/-- Container values of a node (`Object.values`). -/
def childVals : GNode → List GVal
  | .obj fields => fields.map (fun p => p.2)
  | .arr xs => xs

/-- The values the walk pushes: truthy values of object type, i.e. refs
(src/unnamed/part_001 lines 128-131). -/
def childRefs (n : GNode) : List GVal :=
  (childVals n).filter (fun v => match v with | .ref _ => true | _ => false)

/-- Closing de-duplication of the walk results (src/unnamed/part_001 lines
134-141): key is the website or else the name|location|firmName composite,
first occurrence kept. -/
def dedupByKeyGo (seen : List String) : List Record → List Record
  | [] => []
  | r :: rest =>
    let k := dedupKeyMain r
    if k ∈ seen then dedupByKeyGo seen rest
    else r :: dedupByKeyGo (k :: seen) rest

/-- Fueled embedding of the worklist loop of `extractLawyersFromJsonObject`
(src/unnamed/part_001 lines 76-132): pop a value; skip it unless it is an
unvisited container reference; otherwise mark it visited, harvest its
records and push its container-valued children.  The JavaScript `stack`
pops from the array end, so pushed children are reversed here.  `none`
models fuel exhaustion only; the theorem below shows the computed fuel bound
never exhausts, which is the loop's termination argument (each iteration
either shrinks the stack or visits a new container at most once). -/
def extractLawyersFromJsonObjectF (store : GStore) (pageUrl : String) :
    Nat → List GVal → List Nat → List Record → Option (List Record)
  | _, [], _, results => some results
  | 0, _ :: _, _, _ => none
  | fuel+1, v :: rest, visited, results =>
    match v with
    | .ref id =>
      if id ∈ visited then
        extractLawyersFromJsonObjectF store pageUrl fuel rest visited results
      else
        match store[id]? with
        | none => extractLawyersFromJsonObjectF store pageUrl fuel rest visited results
        | some node =>
          extractLawyersFromJsonObjectF store pageUrl fuel
            ((childRefs node).reverse ++ rest) (id :: visited)
            (results ++ nodeRecords store pageUrl node)
    | _ => extractLawyersFromJsonObjectF store pageUrl fuel rest visited results

/-- Number of container-valued children of store entry `id`. -/
def gChildCount (store : GStore) (id : Nat) : Nat :=
  match store[id]? with
  | some n => (childRefs n).length
  | none => 0

/-- Total container-valued children over the not-yet-visited store entries. -/
def slotSum (store : GStore) (visited : List Nat) : Nat :=
  (((List.range store.length).filter (fun i => i ∉ visited)).map (gChildCount store)).sum

/-- Loop measure: pending stack entries plus pushable children of unvisited
nodes; it strictly decreases every iteration. -/
def walkMeasure (store : GStore) (stack : List GVal) (visited : List Nat) : Nat :=
  stack.length + slotSum store visited

/-- Embedding of `extractLawyersFromJsonObject` (src/unnamed/part_001 lines
73-142) at its sufficient fuel: worklist traversal from the root followed by
the closing de-duplication. -/
def extractLawyersFromJsonObject (store : GStore) (root : GVal) (pageUrl : String) :
    Option (List Record) :=
  (extractLawyersFromJsonObjectF store pageUrl
    (walkMeasure store [root] [] + 1) [root] [] []).map (dedupByKeyGo [])

/- ### main.js recursive walk on the graph model -/

/-- Graph-model rendition of `pushCandidate` (src/src/main.js lines 80-155),
identical in structure to `pushCandidate` above but reading through the
store. -/
def gPushCandidate (store : GStore) (pageUrl : String) (node : GNode) (st : ApiWalkSt) : ApiWalkSt :=
  let nameV := (((nodeProp node "name").gOr (nodeProp node "fullName")).gOr
    (nodeProp node "title")).gOr (.str "")
  let lenLt2 : GVal → Bool := fun v =>
    match v with
    | .str s => s.length < 2
    | .ref id =>
      match store[id]? with
      | some (.arr xs) => xs.length < 2
      | _ => false
    | _ => false
  if !gTruthy nameV || lenLt2 nameV then st
  else
    let profileUrl := absoluteUrlG store ((((nodeProp node "url").gOr
      (nodeProp node "profileUrl")).gOr (nodeProp node "link")).gOr
      ((nodeProp node "website").gOr (nodeProp node "permalink"))) pageUrl
    let locationV := ((((nodeProp node "location").gOr (nodeProp node "city")).gOr
      (gPropV store (nodeProp node "address") "city")).gOr
      ((gPropV store (nodeProp node "address") "addressLocality").gOr
      (gPropV store (nodeProp node "address") "region"))).gOr
      ((nodeProp node "state").gOr (.str ""))
    let practiceAreas : String :=
      let areas := ((nodeProp node "practiceAreas").gOr (nodeProp node "specialties")).gOr
        ((nodeProp node "categories").gOr (nodeProp node "tags"))
      if !gTruthy areas then ""
      else match gDeref store areas with
        | some (.arr xs) => String.intercalate ", " (xs.map (gToStr store))
        | _ => match areas with
          | .str s => s
          | _ => ""
    let firmName := gStrOr store (((((nodeProp node "firmName").gOr
      (nodeProp node "company")).gOr (nodeProp node "organization")).gOr
      ((nodeProp node "orgName").gOr (nodeProp node "office"))).gOr
      (nodeProp node "lawFirm"))
    let contactPhone : GVal :=
      if gTypeofObject (nodeProp node "contact") then gPropV store (nodeProp node "contact") "phone"
      else .str ""
    let phone := gStrOr store ((((((nodeProp node "phone").gOr
      (nodeProp node "telephone")).gOr (nodeProp node "tel")).gOr
      (nodeProp node "contactPhone")).gOr (nodeProp node "mobile")).gOr contactPhone)
    let contactEmail : GVal :=
      if gTypeofObject (nodeProp node "contact") then gPropV store (nodeProp node "contact") "email"
      else .str ""
    let email := gStrOr store ((((nodeProp node "email").gOr (nodeProp node "mail")).gOr
      (nodeProp node "contactEmail")).gOr contactEmail)
    let pick : GVal := (((GVal.str profileUrl).gOr (nodeProp node "id")).gOr
      (nodeProp node "slug")).gOr locationV
    let dedupKey := gToStr store nameV ++ "|" ++ gToStr store pick
    if dedupKey ∈ st.seen then st
    else
      let bioV := (nodeProp node "biography").gOr (nodeProp node "bio")
      let eduV := (nodeProp node "education").gOr (nodeProp node "schools")
      let barV := (nodeProp node "barAdmissions").gOr (nodeProp node "admissions")
      let langV := nodeProp node "languages"
      let gToList : GVal → List String := fun v =>
        match gDeref store v with
        | some (.arr xs) => xs.map (gToStr store)
        | _ => [gToStr store v]
      let rec0 : Record :=
        { name := gToStr store nameV
          firmName := firmName
          location := gStrOr store locationV
          address :=
            match nodeProp node "address" with
            | .str s => s
            | addr => gStrOr store (((gPropV store addr "streetAddress").gOr locationV).gOr (.str ""))
          phone := phone
          email := email
          website := profileUrl
          practiceAreas := practiceAreas
          description := gStrOr store ((nodeProp node "description").gOr (nodeProp node "summary"))
          yearsLicensed := gStrOr store ((nodeProp node "yearsLicensed").gOr
            (nodeProp node "experience"))
          biography := if gTruthy bioV then some (gToStr store bioV) else none
          education := if gTruthy eduV then some (gToList eduV) else none
          barAdmissions := if gTruthy barV then some (gToList barV) else none
          languages := if gTruthy langV then some (gToList langV) else none }
      { results := st.results ++ [rec0], seen := dedupKey :: st.seen }

mutual
/-- Graph-model embedding of the recursive `walk` inside
`extractLawyersFromApiPayload` (src/src/main.js lines 157-174): NATIVE
recursion over object values with NO visited set.  `fuel` bounds the total
number of recursive steps of the embedding; on a self-referential store the
walk exhausts every finite fuel (see the divergence theorem below), which is
the graph-model reading of unbounded recursion. -/
def walkMainG (store : GStore) (pageUrl : String) : Nat → GVal → ApiWalkSt → Option ApiWalkSt
  | 0, _, _ => none
  | fuel+1, v, st =>
    if !gTruthy v then some st
    else match gDeref store v with
      | some (.arr xs) => walkMainGList store pageUrl fuel xs st
      | some (.obj fields) =>
        let node := GNode.obj fields
        let hasName := (((nodeProp node "name").gOr (nodeProp node "fullName")).gOr
          (nodeProp node "title")) |> gTruthy
        let looksLikeLawyer := hasName || fields.any (fun p =>
          let k := jsLower p.1
          containsSub k "attorney" || containsSub k "lawyer" || containsSub k "profile")
        let st1 := if looksLikeLawyer then gPushCandidate store pageUrl node st else st
        walkMainGVals store pageUrl fuel fields st1
      | none => some st

def walkMainGList (store : GStore) (pageUrl : String) : Nat → List GVal → ApiWalkSt → Option ApiWalkSt
  | 0, _, _ => none
  | _+1, [], st => some st
  | fuel+1, x :: xs, st =>
    match walkMainG store pageUrl fuel x st with
    | some st' => walkMainGList store pageUrl fuel xs st'
    | none => none

def walkMainGVals (store : GStore) (pageUrl : String) : Nat → List (String × GVal) → ApiWalkSt → Option ApiWalkSt
  | 0, _, _ => none
  | _+1, [], st => some st
  | fuel+1, (_, v) :: fs, st =>
    match walkMainG store pageUrl fuel v st with
    | some st' => walkMainGVals store pageUrl fuel fs st'
    | none => none
end

/-- Divergence of a graph walk: every finite step budget is exhausted. -/
def walkMainDivergesOn (store : GStore) (pageUrl : String) (root : GVal) : Prop :=
  ∀ fuel : Nat, walkMainG store pageUrl fuel root {} = none

/-- A minimal self-referential store: node 0 is an object whose single field
points back at node 0. -/
def cyclicStore : GStore := [.obj [("self", .ref 0)]]

/- ### Claims -/

/-- C8: the specification's extractor contract says `extract(payload,
pageURL)` never throws and malformed input yields an empty list, including a
JSON-LD block whose `@type` is not a string.  The code violates this: for
`@type` a number, `const type = item['@type'] || ''` keeps the number and
`type.includes('Attorney')` raises `TypeError: type.includes is not a
function`, which propagates out of `extractLawyersFromJsonLd`
(src/src/main.js lines 204-210) — there is no try/catch between it and the
requestHandler.  This theorem evaluates the embedded extractor at the
failing input. -/
theorem c8_jsonld_typeerror :
    extractLawyersFromJsonLd (.obj [("@type", .num 42), ("name", .str "X")])
      "https://www.justia.com/lawyers/california" = .error .typeError ∧
    extractLawyersFromJsonLdHtml [some (.obj [("@type", .num 42), ("name", .str "X")])]
      "https://www.justia.com/lawyers/california" = .error .typeError := by
  decide

/-- Fixed challenge-phrase set of the part_001 blocking detector. -/
def loopPhrases : List String :=
  ["just a moment", "checking your browser", "cf-browser-verification", "cloudflare"]

/-- Fixed challenge-phrase set of the main.js blocking detector. -/
def mainPhrases : List String :=
  ["just a moment", "verify you are human", "cf-browser-verification",
   "access denied", "security of your connection"]

/-- Blocked classification exactly as claim C4 words it: HTTP status in the
fixed set 403/429/503, or one of the fixed phrases inside the lower-cased
5000-character leading sample of the body. -/
def specBlocked (phrases : List String) (statusCode : Nat) (body : String) : Bool :=
  (statusCode == 403 || statusCode == 429 || statusCode == 503) ||
  phrases.any (fun p => containsSub (jsLower (String.mk (body.data.take 5000))) p)

/-- C4 counterexample: the main.js detector (`blockedMain`, cited by the
claim) classifies a 429 response with an empty body as NOT blocked, while
the claimed characterization — status in the fixed set 403/429/503 or a
bounded-sample phrase — classifies it blocked.  The claimed iff is
therefore false for the main.js variant (which also scans the whole body,
not a bounded sample). -/
theorem c4_counterexample :
    blockedMain 429 "" = false ∧
    specBlocked mainPhrases 429 "" = true ∧
    specBlocked loopPhrases 429 "" = true := by
  decide

/-- Helper: the part_001 body scan equals a phrase-list `any` over the
bounded lower-cased sample. -/
theorem isBlockedHtmlLoop_eq_any (body : String) :
    isBlockedHtmlLoop body =
      loopPhrases.any (fun p => containsSub (jsLower (String.mk (body.data.take 5000))) p) := by
  by_cases hb : body = ""
  · subst hb; decide
  · simp [isBlockedHtmlLoop, hb, loopPhrases, Bool.or_assoc]

/-- C4 as amended: the part_001 detector satisfies the claim exactly — a
result is blocked iff the status is 403, 429 or 503 or one of its fixed
phrases occurs in the lower-cased 5000-character leading sample; its body
scan depends only on that bounded sample; and the main.js detector instead
combines status 403 alone with an unbounded scan of the whole body. -/
theorem c4_detector :
    (∀ r : FetchResult, blockedLoop r = specBlocked loopPhrases r.statusCode r.body) ∧
    (∀ body : String,
      isBlockedHtmlLoop body = isBlockedHtmlLoop (String.mk (body.data.take 5000))) ∧
    (∀ (st : Nat) (body : String), blockedMain st body = (st == 403 || isBlockedHtmlMain body)) := by
  refine ⟨?_, ?_, ?_⟩
  · intro r
    rcases r with ⟨u, st, body⟩
    simp only [blockedLoop, specBlocked]
    rw [isBlockedHtmlLoop_eq_any]
    generalize (loopPhrases.any fun p =>
      containsSub (jsLower (String.mk (body.data.take 5000))) p) = A
    generalize (st == 403) = B
    generalize (st == 429) = C
    generalize (st == 503) = D
    cases A <;> cases B <;> cases C <;> cases D <;> rfl
  · intro body
    by_cases hb : body = ""
    · subst hb; rfl
    · rw [isBlockedHtmlLoop_eq_any body, isBlockedHtmlLoop_eq_any (String.mk (body.data.take 5000))]
      have hdata : (String.mk (body.data.take 5000)).data = body.data.take 5000 := rfl
      rw [hdata]
      simp [List.take_take]
  · intro st body
    rfl

/-- Two candidates with empty profileURL and identical composite fields. -/
def c3r1 : Record := { name := "Jane Doe", location := "Austin, TX", firmName := "Doe LLP" }

/-- A candidate that differs from `c3r1` in its name, also with empty
profileURL. -/
def c3r2 : Record := { name := "John Roe", location := "Austin, TX", firmName := "Doe LLP" }

/-- C3 counterexample: the part_001 admission filter cited by the claim
(`if (!l.website) continue`) drops BOTH candidates with an empty profileURL
even though they differ in `name`, so they are not "both admitted and
stored" as the claim asserts. -/
theorem c3_counterexample :
    (admitLoopPart1 10 10 [] 0 [c3r1, c3r2]).1 = [] ∧
    c3r1.website = "" ∧ c3r2.website = "" ∧ c3r1.name ≠ c3r2.name := by
  decide

/-- C3 as amended: in the main.js requestHandler the identity key is the
profileURL when nonempty and otherwise the `name|location|firmName`
composite; an already-admitted key stores no second copy; two
empty-profileURL candidates with identical composite fields deduplicate to
one; and two empty-profileURL candidates whose composite keys differ are
both admitted (fields containing the `|` delimiter can make different
field triples collide).  In the part_001/part_002 variants, candidates with
an empty profileURL are dropped outright instead. -/
theorem c3_dedup_main :
    (∀ r : Record, r.website ≠ "" → dedupKeyMain r = r.website) ∧
    (∀ r : Record, r.website = "" →
      dedupKeyMain r = r.name ++ "|" ++ r.location ++ "|" ++ r.firmName) ∧
    (∀ (maxL : Nat) (seen : List String) (total : Nat) (r : Record) (rest : List Record),
      dedupKeyMain r ∈ seen →
      admitLoopMain maxL seen total (r :: rest) = admitLoopMain maxL seen total rest) ∧
    (∀ r₁ r₂ : Record, r₁.website = "" → r₂.website = "" →
      r₁.name = r₂.name → r₁.location = r₂.location → r₁.firmName = r₂.firmName →
      (admitLoopMain 0 [] 0 [r₁, r₂]).1 = [r₁]) ∧
    (∀ r₁ r₂ : Record, dedupKeyMain r₁ ≠ dedupKeyMain r₂ →
      (admitLoopMain 0 [] 0 [r₁, r₂]).1 = [r₁, r₂]) := by
  refine ⟨?_, ?_, ?_, ?_, ?_⟩
  · intro r h
    simp [dedupKeyMain, strOr, h]
  · intro r h
    simp [dedupKeyMain, strOr, h]
  · intro maxL seen total r rest h
    simp [admitLoopMain, h]
  · intro r₁ r₂ h1 h2 hn hl hf
    have hk : dedupKeyMain r₂ = dedupKeyMain r₁ := by
      simp [dedupKeyMain, strOr, h1, h2, hn, hl, hf]
    simp [admitLoopMain, hk]
  · intro r₁ r₂ hk
    simp [admitLoopMain, hk, Ne.symm hk]

/-- Witness for `c3_dedup_main` at concrete inputs. -/
theorem c3_dedup_main_witness :
    dedupKeyMain c3r1 = "Jane Doe|Austin, TX|Doe LLP" ∧
    (admitLoopMain 0 [] 0 [c3r1, c3r1]).1 = [c3r1] ∧
    (admitLoopMain 0 [] 0 [c3r1, c3r2]).1 = [c3r1, c3r2] := by
  refine ⟨?_, ?_, ?_⟩
  · have := c3_dedup_main.2.1 c3r1 (by decide)
    simpa using this
  · exact c3_dedup_main.2.2.2.1 c3r1 c3r1 (by decide) (by decide) rfl rfl rfl
  · exact c3_dedup_main.2.2.2.2 c3r1 c3r2 (by decide)

/-- A listing page carrying BOTH a valid JSON-LD block and valid
heuristically-extractable HTML that yield different records. -/
def pageC1 : Page :=
  { body := "listing markup"
    ldScripts := [some (.obj [("@type", .str "Attorney"), ("name", .str "Alice Smith"),
      ("url", .str "/lawyers/alice-smith-1")])]
    anchors := [{ href := "/lawyers/bob-jones-2", text := "Bob Jones", card := some {} }] }

/-- The record the JSON-LD extractor yields on `pageC1`. -/
def aliceRec : Record :=
  { name := "Alice Smith", website := "https://www.justia.com/lawyers/alice-smith-1" }

/-- The record the heuristic HTML extractor yields on `pageC1`. -/
def bobRec : Record :=
  { name := "Bob Jones", website := "https://www.justia.com/lawyers/bob-jones-2" }

/-- C1 counterexample: on a page with both a valid JSON-LD block and valid
heuristic HTML yielding different records, the main.js requestHandler
(cited by the claim) outputs BOTH records — the JSON-LD one followed by the
HTML one — and the page's stored batch contains the lower-priority HTML
record, refuting "the output equals the JSON-LD extractor's output only". -/
theorem c1_counterexample :
    lawyersMain pageC1 "https://www.justia.com/lawyers/texas" = .ok [aliceRec, bobRec] ∧
    extractLawyersFromJsonLdHtml pageC1.ldScripts "https://www.justia.com/lawyers/texas" =
      .ok [aliceRec] ∧
    extractListingViaHtml pageC1.anchors "https://www.justia.com/lawyers/texas" = [bobRec] ∧
    (admitLoopMain 50 [] 0 [aliceRec, bobRec]).1 = [aliceRec, bobRec] ∧
    aliceRec ≠ bobRec := by
  decide

/-- C1 as amended: the part_001 sequential loop does try its strategies
(JSON-API discovery, embedded JSON, heuristic HTML) in fixed priority order
and stops at the first nonempty result; the main.js requestHandler instead
runs its three extractors (JSON-LD, framework state, heuristic HTML)
unconditionally and concatenates their outputs in that fixed order before
deduplication, so a page with both JSON-LD and heuristic HTML yields
records from both. -/
theorem c1_cascade :
    (∀ api emb html : List Record, api ≠ [] → cascadeLoop false api emb html = api) ∧
    (∀ api emb html : List Record, api = [] → emb ≠ [] → cascadeLoop false api emb html = emb) ∧
    (∀ api emb html : List Record, api = [] → emb = [] → cascadeLoop false api emb html = html) ∧
    (∀ (p : Page) (u : String) (ld : List Record), p.body ≠ "" →
      extractLawyersFromJsonLdHtml p.ldScripts u = .ok ld →
      lawyersMain p u = .ok (ld ++ extractLawyersFromNextData p.nextData u ++
        extractListingViaHtml p.anchors u)) := by
  refine ⟨?_, ?_, ?_, ?_⟩
  · intro api emb html h
    simp [cascadeLoop, h]
  · intro api emb html h1 h2
    simp [cascadeLoop, h1, h2]
  · intro api emb html h1 h2
    simp [cascadeLoop, h1, h2]
  · intro p u ld hbody hld
    simp [lawyersMain, hbody, hld]

/-- Witness for `c1_cascade` at concrete inputs. -/
theorem c1_cascade_witness :
    cascadeLoop false [aliceRec] [bobRec] [] = [aliceRec] ∧
    cascadeLoop false [] [bobRec] [aliceRec] = [bobRec] ∧
    cascadeLoop false [] [] [bobRec] = [bobRec] ∧
    lawyersMain pageC1 "https://www.justia.com/lawyers/texas" =
      .ok ([aliceRec] ++ extractLawyersFromNextData pageC1.nextData
        "https://www.justia.com/lawyers/texas" ++
        extractListingViaHtml pageC1.anchors "https://www.justia.com/lawyers/texas") := by
  refine ⟨?_, ?_, ?_, ?_⟩
  · exact c1_cascade.1 [aliceRec] [bobRec] [] (by decide)
  · exact c1_cascade.2.1 [] [bobRec] [aliceRec] rfl (by decide)
  · exact c1_cascade.2.2.1 [] [] [bobRec] rfl rfl
  · exact c1_cascade.2.2.2 pageC1 "https://www.justia.com/lawyers/texas" [aliceRec]
      (by decide) (by decide)

/-- C10: the main.js requestHandler enqueues a new listing request only when
the resolved next URL is nonempty AND differs from the URL just processed
(`if (nextUrl && nextUrl !== request.url)`), so a page whose pagination
markup resolves to the page's own URL (or to nothing) is processed once and
the run ends — it never loops on that page.  Stated on the embedded run with
unlimited budgets so only the enqueue guard decides continuation. -/
theorem c10_no_self_enqueue :
    ∀ (env : String → Page) (fuel : Nat) (u : String) (s : MainState) (lawyers : List Record),
      blockedMain (env u).statusCode (env u).body = false →
      lawyersMain (env u) u = .ok lawyers →
      (findNextPageUrl (env u).anchors (env u).pagination u = u ∨
       findNextPageUrl (env u).anchors (env u).pagination u = "") →
      (runMainGo env 0 0 (fuel + 1) u 0 s).trace = s.trace ++ [⟨u, .lightweight, false⟩] := by
  intro env fuel u s lawyers hb hok hnext
  simp only [runMainGo, hb, Bool.false_and, if_false, hok]
  rcases hnext with h | h <;> simp [h]

/-- A page whose pagination markup resolves to the page's own URL. -/
def c10page : Page :=
  { body := "listing markup"
    anchors := [{ href := "https://www.justia.com/lawyers/texas", rel := "next" }] }

/-- Witness for `c10_no_self_enqueue`: a concrete self-resolving page is
processed exactly once. -/
theorem c10_no_self_enqueue_witness :
    (runMainGo (fun _ => c10page) 0 0 5 "https://www.justia.com/lawyers/texas" 0 {}).trace =
      [⟨"https://www.justia.com/lawyers/texas", .lightweight, false⟩] := by
  have h := c10_no_self_enqueue (fun _ => c10page) 4 "https://www.justia.com/lawyers/texas"
    {} [] (by decide) (by decide) (Or.inl (by decide))
  simpa using h

/-- C7: the pagination resolver evaluates its four rules in fixed order —
rel="next" link, next-token anchor text, aria-label containing Next/next,
pagination-container current-number plus one — returning the first match
absolutized; when no rule matches it returns the empty string; and in the
part_001 run an empty resolution ends the run within that iteration (the
embedding is a total function: no exception).  Budgets are unlimited in the
termination conjunct so only the resolver decides continuation. -/
theorem c7_pagination_resolver :
    (∀ (anchors : List Anchor) (pag : Option Pagination) (u h : String),
      ruleRelNext anchors = some h →
      findNextPageUrl anchors pag u = absoluteUrl h u) ∧
    (∀ (anchors : List Anchor) (pag : Option Pagination) (u h : String),
      ruleRelNext anchors = none → ruleNextText isNextTokenMain anchors = some h →
      findNextPageUrl anchors pag u = absoluteUrl h u) ∧
    (∀ (anchors : List Anchor) (pag : Option Pagination) (u h : String),
      ruleRelNext anchors = none → ruleNextText isNextTokenMain anchors = none →
      ruleAriaNext anchors = some h →
      findNextPageUrl anchors pag u = absoluteUrl h u) ∧
    (∀ (anchors : List Anchor) (pag : Option Pagination) (u h : String),
      ruleRelNext anchors = none → ruleNextText isNextTokenMain anchors = none →
      ruleAriaNext anchors = none → rulePageIncrement pag = some h →
      findNextPageUrl anchors pag u = absoluteUrl h u) ∧
    (∀ (anchors : List Anchor) (pag : Option Pagination) (u : String),
      ruleRelNext anchors = none → ruleNextText isNextTokenMain anchors = none →
      ruleAriaNext anchors = none → rulePageIncrement pag = none →
      findNextPageUrl anchors pag u = "") ∧
    (∀ (env : String → LoopView) (renv : String → RenderView) (fuel : Nat)
       (u : String) (pp tot : Nat) (seen : List String),
      blockedLoop (env u).fetch = false →
      findNextPageUrlLoop (env u).anchors (env u).pagination u = "" →
      runLoopEvents env renv 0 0 (fuel + 1) u pp tot seen = [⟨u, .lightweight, false⟩]) := by
  refine ⟨?_, ?_, ?_, ?_, ?_, ?_⟩
  · intro anchors pag u h h1
    simp [findNextPageUrl, h1]
  · intro anchors pag u h h1 h2
    simp [findNextPageUrl, h1, h2]
  · intro anchors pag u h h1 h2 h3
    simp [findNextPageUrl, h1, h2, h3]
  · intro anchors pag u h h1 h2 h3 h4
    simp [findNextPageUrl, h1, h2, h3, h4]
  · intro anchors pag u h1 h2 h3 h4
    simp [findNextPageUrl, h1, h2, h3, h4]
  · intro env renv fuel u pp tot seen hb hnext
    simp [runLoopEvents, hb, hnext]

/-- A page with no anchor matched by any of the four pagination rules. -/
def c7page : LoopView :=
  { fetch := { statusCode := 200, body := "usable page" }
    anchors := [{ href := "/lawyers/carol-4", text := "Carol", card := some {} }] }

/-- Witness for `c7_pagination_resolver` at concrete inputs. -/
theorem c7_pagination_resolver_witness :
    findNextPageUrl [{ href := "/lawyers/texas?page=2", rel := "next" }] none
      "https://www.justia.com/lawyers/texas" =
      "https://www.justia.com/lawyers/texas?page=2" ∧
    findNextPageUrl [] none "https://www.justia.com/lawyers/texas" = "" ∧
    runLoopEvents (fun _ => c7page) (fun _ => {}) 0 0 4 "https://www.justia.com/lawyers/texas"
      0 0 [] = [⟨"https://www.justia.com/lawyers/texas", .lightweight, false⟩] := by
  refine ⟨?_, ?_, ?_⟩
  · have h := c7_pagination_resolver.1 [{ href := "/lawyers/texas?page=2", rel := "next" }]
      none "https://www.justia.com/lawyers/texas" "/lawyers/texas?page=2" (by decide)
    simpa using h
  · exact c7_pagination_resolver.2.2.2.2.1 [] none "https://www.justia.com/lawyers/texas"
      rfl rfl rfl rfl
  · exact c7_pagination_resolver.2.2.2.2.2 (fun _ => c7page) (fun _ => {}) 3
      "https://www.justia.com/lawyers/texas" 0 0 [] (by decide) (by decide)



/-- Helper: the admission loop never pushes the stored total past a positive
budget. -/
theorem admitLoopMain_le (N : Nat) (hN : 0 < N) :
    ∀ (cands : List Record) (seen : List String) (total : Nat), total ≤ N →
      (admitLoopMain N seen total cands).2.2 ≤ N := by
  intro cands
  induction cands with
  | nil =>
    intro seen total h
    simpa [admitLoopMain] using h
  | cons l rest ih =>
    intro seen total h
    simp only [admitLoopMain]
    by_cases hk : dedupKeyMain l ∈ seen
    · simp only [hk, if_true]
      exact ih _ _ h
    · simp only [hk, if_false]
      by_cases hb : N ≤ total
      · rw [if_pos (by simp [hN, hb])]
        simpa using h
      · rw [if_neg (by simp [hb])]
        exact ih _ _ (by omega)

/-- Helper: the `total` projection distributes over an if. -/
theorem ite_total (c : Prop) [Decidable c] (a b : MainState) :
    (if c then a else b).total = if c then a.total else b.total := by
  split <;> rfl

/-- Helper: the main.js run never stores past a positive record budget. -/
theorem runMainGo_total_le (env : String → Page) (N mp : Nat) (hN : 0 < N) :
    ∀ (fuel : Nat) (u : String) (retry : Nat) (s : MainState), s.total ≤ N →
      (runMainGo env N mp fuel u retry s).total ≤ N := by
  intro fuel
  induction fuel with
  | zero =>
    intro u retry s h
    simpa [runMainGo] using h
  | succ fuel ih =>
    intro u retry s h
    simp only [runMainGo]
    split
    · exact ih _ _ _ (by simpa using h)
    · split
      · simpa using h
      · rename_i lawyers heq
        have hadm : (admitLoopMain N s.seen s.total lawyers).2.2 ≤ N :=
          admitLoopMain_le N hN lawyers s.seen s.total h
        split
        case isTrue =>
          by_cases c1 : (decide (N > 0) &&
              decide ((admitLoopMain N s.seen s.total lawyers).2.2 ≥ N)) = true
          · rw [if_pos c1]
            exact hadm
          · rw [if_neg c1]
            by_cases c2 : (decide (mp > 0) && decide (s.pagesProcessed + 1 ≥ mp)) = true
            · rw [if_pos c2]
              exact hadm
            · rw [if_neg c2]
              by_cases c3 : (decide (findNextPageUrl (env u).anchors (env u).pagination u ≠ "") &&
                  decide (findNextPageUrl (env u).anchors (env u).pagination u ≠ u)) = true
              · rw [if_pos c3]
                exact ih _ _ _ hadm
              · rw [if_neg c3]
                exact hadm
        case isFalse =>
          by_cases c1 : (decide (N > 0) &&
              decide ((admitLoopMain N s.seen s.total lawyers).2.2 ≥ N)) = true
          · rw [if_pos c1]
            exact hadm
          · rw [if_neg c1]
            by_cases c2 : (decide (mp > 0) && decide (s.pagesProcessed + 1 ≥ mp)) = true
            · rw [if_pos c2]
              exact hadm
            · rw [if_neg c2]
              by_cases c3 : (decide (findNextPageUrl (env u).anchors (env u).pagination u ≠ "") &&
                  decide (findNextPageUrl (env u).anchors (env u).pagination u ≠ u)) = true
              · rw [if_pos c3]
                exact ih _ _ _ hadm
              · rw [if_neg c3]
                exact hadm

/-- Listing-card anchor for the i-th synthetic lawyer. -/
def c5anchor (i : Nat) : Anchor :=
  { href := "/lawyers/profile-" ++ toString i
    text := "Lawyer " ++ toString i
    card := some {} }

/-- URL of the first synthetic listing page. -/
def c5u1 : String := "https://www.justia.com/lawyers/texas"

/-- URL of the second synthetic listing page. -/
def c5u2 : String := "https://www.justia.com/lawyers/texas?page=2"

/-- URL of the third synthetic listing page. -/
def c5u3 : String := "https://www.justia.com/lawyers/texas?page=3"

/-- First synthetic page: 9 candidates and a rel=next link to page 2. -/
def c5p1 : Page :=
  { body := "listing markup"
    anchors := (List.range 9).map (fun i => c5anchor (i + 1)) ++
      [{ href := c5u2, rel := "next" }] }

/-- Second synthetic page: 9 more candidates and a rel=next link to page 3. -/
def c5p2 : Page :=
  { body := "listing markup"
    anchors := (List.range 9).map (fun i => c5anchor (i + 10)) ++
      [{ href := c5u3, rel := "next" }] }

/-- Third synthetic page: 7 further candidates, never fetched in the run. -/
def c5p3 : Page :=
  { body := "listing markup"
    anchors := (List.range 7).map (fun i => c5anchor (i + 19)) }

/-- Environment serving the three synthetic listing pages. -/
def envC5 : String → Page := fun u =>
  if u = c5u1 then c5p1 else if u = c5u2 then c5p2 else if u = c5u3 then c5p3 else {}

/-- C5: with a positive `maxLawyers` budget N, the main.js run stores at most
N records in total; and on a concrete source yielding 25 candidates across
3 pages with `maxLawyers = 10`, exactly 10 records are emitted (9 on page
one, then 1 — the run breaks mid-page on page two) and no third page is
ever fetched (the trace has exactly the two page fetches). -/
theorem c5_budget_enforcement :
    (∀ (env : String → Page) (N mp fuel : Nat) (u : String) (retry : Nat) (s : MainState),
      0 < N → s.total ≤ N → (runMainGo env N mp fuel u retry s).total ≤ N) ∧
    ((runMainGo envC5 10 0 9 c5u1 0 {}).total = 10 ∧
     (runMainGo envC5 10 0 9 c5u1 0 {}).batches.map List.length = [9, 1] ∧
     (runMainGo envC5 10 0 9 c5u1 0 {}).trace =
       [⟨c5u1, .lightweight, false⟩, ⟨c5u2, .lightweight, false⟩] ∧
     (extractListingViaHtml c5p1.anchors c5u1).length = 9 ∧
     (extractListingViaHtml c5p2.anchors c5u2).length = 9 ∧
     (extractListingViaHtml c5p3.anchors c5u3).length = 7) := by
  constructor
  · intro env N mp fuel u retry s hN hs
    exact runMainGo_total_le env N mp hN fuel u retry s hs
  · refine ⟨?_, ?_, ?_, ?_, ?_, ?_⟩ <;> decide

/-- Witness for `c5_budget_enforcement` at the concrete scenario. -/
theorem c5_budget_enforcement_witness :
    (runMainGo envC5 10 0 9 c5u1 0 {}).total ≤ 10 :=
  c5_budget_enforcement.1 envC5 10 0 9 c5u1 0 {} (by decide) (by decide)


/-- Helper: an empty `strOr` forces its fallback empty. -/
theorem strOr_empty {a b : String} (h : strOr a b = "") : b = "" := by
  unfold strOr at h
  split_ifs at h with hc
  · exact h
  · exact absurd h hc

/-- Helper: a `none` result of `jsOrOptStr` forces its fallback `none`. -/
theorem jsOrOptStr_none {a b : Option String} (h : jsOrOptStr a b = none) : b = none := by
  rcases a with _ | s
  · simpa [jsOrOptStr] using h
  · by_cases hs : s = ""
    · simpa [jsOrOptStr, hs] using h
    · simp [jsOrOptStr, hs] at h

/-- Helper: a `none` result of `jsOrOpt` forces its fallback `none`. -/
theorem jsOrOpt_none {α : Type} {a b : Option α} (h : jsOrOpt a b = none) : b = none := by
  rcases a with _ | x
  · simpa [jsOrOpt] using h
  · simp [jsOrOpt] at h

/-- Helper: the detail-base-then-JSON-LD fold of the phone merge chain. -/
theorem strOr_fold (dt dh di b l : String) :
    strOr (strOr dt (strOr dh (strOr di b))) (strOr l b) =
    strOr (strOr dt (strOr dh di)) (strOr b l) := by
  unfold strOr
  split_ifs <;> simp_all

/-- Base record for the enrichment counterexample: nonempty phone. -/
def c6base : Record :=
  { name := "Pat Quinn", phone := "111-1111",
    website := "https://www.justia.com/lawyers/pat-quinn-3" }

/-- Detail page whose selectors yield no phone but whose JSON-LD block does. -/
def c6detail : DetailView :=
  { ldScripts := [some (.obj [("@type", .str "Attorney"), ("name", .str "Pat Quinn"),
      ("telephone", .str "222-2222")])] }

/-- C6 counterexample: the claimed merge precedence (detail-page field over
detail-page JSON-LD over base value) would yield the JSON-LD phone
`222-2222` here, since the detail-page phone selectors are empty and the
JSON-LD phone is nonempty; but the code folds the BASE phone into the
detail value before consulting JSON-LD
(`phone = telSelectors || baseData.phone; mergedPhone = phone || ld?.phone || baseData.phone`),
so the merged phone is the base `111-1111`. -/
theorem c6_counterexample :
    (enrichProfileWithDetailsHttp "https://www.justia.com/lawyers/pat-quinn-3"
      "profile markup" c6detail c6base).phone = "111-1111" ∧
    (extractLawyersFromJsonLdHtml c6detail.ldScripts
      "https://www.justia.com/lawyers/pat-quinn-3").map (fun l => l.map (fun r => r.phone)) =
      .ok ["222-2222"] ∧
    ("111-1111" : String) ≠ "222-2222" := by
  decide

/-- Helper: outside the blocked/failed cases the enrichment is the merge of
detail view, first detail-page JSON-LD record and base record. -/
theorem enrichHttp_eq_merge (u html : String) (d : DetailView) (base : Record)
    (h1 : html ≠ "") (h2 : isBlockedHtmlMain html = false) (lds : List Record)
    (hld : extractLawyersFromJsonLdHtml d.ldScripts u = .ok lds) :
    enrichProfileWithDetailsHttp u html d base = enrichMerge u d base lds.head? := by
  simp [enrichProfileWithDetailsHttp, h1, h2, hld]

/-- Helper: fieldwise never-degrade property of the merge. -/
theorem enrichMerge_no_degrade (u : String) (d : DetailView) (base : Record)
    (ld : Option Record) :
    ((enrichMerge u d base ld).phone = "" → base.phone = "") ∧
    ((enrichMerge u d base ld).email = "" → base.email = "") ∧
    ((enrichMerge u d base ld).firmName = "" → base.firmName = "") ∧
    ((enrichMerge u d base ld).address = "" → base.address = "") ∧
    ((enrichMerge u d base ld).location = "" → base.location = "") ∧
    ((enrichMerge u d base ld).practiceAreas = "" → base.practiceAreas = "") ∧
    ((enrichMerge u d base ld).description = "" → base.description = "") ∧
    ((enrichMerge u d base ld).biography = none → base.biography = none) ∧
    ((enrichMerge u d base ld).education = none → base.education = none) ∧
    ((enrichMerge u d base ld).barAdmissions = none → base.barAdmissions = none) ∧
    ((enrichMerge u d base ld).languages = none → base.languages = none) ∧
    ((∀ m, d.licensedMatch = some m → m ≠ "") →
      (enrichMerge u d base ld).yearsLicensed = "" → base.yearsLicensed = "") := by
  refine ⟨?_, ?_, ?_, ?_, ?_, ?_, ?_, ?_, ?_, ?_, ?_, ?_⟩
  · intro h
    simp only [enrichMerge] at h
    exact strOr_empty (strOr_empty h)
  · intro h
    simp only [enrichMerge] at h
    exact strOr_empty h
  · intro h
    simp only [enrichMerge] at h
    exact strOr_empty (strOr_empty h)
  · intro h
    simp only [enrichMerge] at h
    exact strOr_empty (strOr_empty h)
  · intro h
    simp only [enrichMerge] at h
    exact strOr_empty (strOr_empty h)
  · intro h
    simp only [enrichMerge] at h
    exact strOr_empty (strOr_empty h)
  · intro h
    simp only [enrichMerge] at h
    exact strOr_empty h
  · intro h
    simp only [enrichMerge] at h
    exact jsOrOptStr_none (jsOrOptStr_none h)
  · intro h
    simp only [enrichMerge] at h
    rcases hx : ld.bind (fun r => r.education) with _ | v <;>
      simp only [hx] at h <;> (try split_ifs at h) <;> (try simp_all) <;>
      exact jsOrOpt_none h
  · intro h
    simp only [enrichMerge] at h
    rcases hx : ld.bind (fun r => r.barAdmissions) with _ | v <;>
      simp only [hx] at h <;> (try split_ifs at h) <;> (try simp_all) <;>
      exact jsOrOpt_none h
  · intro h
    simp only [enrichMerge] at h
    rcases hx : ld.bind (fun r => r.languages) with _ | v <;>
      simp only [hx] at h <;> (try split_ifs at h) <;> (try simp_all) <;>
      exact jsOrOpt_none h
  · intro hm h
    simp only [enrichMerge] at h
    rcases hy : d.licensedMatch with _ | m
    · rw [hy] at h
      simpa using h
    · rw [hy] at h
      simp only [Option.getD_some] at h
      exact absurd h (hm m hy)

/-- C6 as amended: enrichment is non-fatal — an empty or blocked detail
fetch, and any JavaScript error raised inside enrichment, return the base
record unchanged — and it never degrades a record: no field with a nonempty
(or non-null) base value becomes empty (null).  A base record with phone
`555-0100` and a detail page yielding no phone keeps `555-0100`.  The merge
precedence, however, is detail-page field over detail-page JSON-LD over
base value only for email, practice areas, description and the list
fields; for phone (likewise firm name, address, location) the BASE value is
folded in before the detail-page JSON-LD is consulted, as the phone
characterization here states: detail selectors, else base phone, else
JSON-LD phone. -/
theorem c6_enrichment :
    (∀ (u html : String) (d : DetailView) (base : Record),
      html = "" ∨ isBlockedHtmlMain html = true →
      enrichProfileWithDetailsHttp u html d base = base) ∧
    (∀ (u html : String) (d : DetailView) (base : Record) (e : JsErr),
      extractLawyersFromJsonLdHtml d.ldScripts u = .error e →
      enrichProfileWithDetailsHttp u html d base = base) ∧
    (∀ (u html : String) (d : DetailView) (base : Record),
      ((enrichProfileWithDetailsHttp u html d base).phone = "" → base.phone = "") ∧
      ((enrichProfileWithDetailsHttp u html d base).email = "" → base.email = "") ∧
      ((enrichProfileWithDetailsHttp u html d base).firmName = "" → base.firmName = "") ∧
      ((enrichProfileWithDetailsHttp u html d base).address = "" → base.address = "") ∧
      ((enrichProfileWithDetailsHttp u html d base).location = "" → base.location = "") ∧
      ((enrichProfileWithDetailsHttp u html d base).practiceAreas = "" →
        base.practiceAreas = "") ∧
      ((enrichProfileWithDetailsHttp u html d base).description = "" →
        base.description = "") ∧
      ((enrichProfileWithDetailsHttp u html d base).biography = none →
        base.biography = none) ∧
      ((enrichProfileWithDetailsHttp u html d base).education = none →
        base.education = none) ∧
      ((enrichProfileWithDetailsHttp u html d base).barAdmissions = none →
        base.barAdmissions = none) ∧
      ((enrichProfileWithDetailsHttp u html d base).languages = none →
        base.languages = none)) ∧
    (∀ (u : String) (d : DetailView) (base : Record) (ld : Option Record),
      (enrichMerge u d base ld).phone =
        strOr (strOr (jsTrim d.telText) (strOr (jsTrim (removeFirst d.telHref "tel:"))
          (jsTrim d.telItemprop)))
          (strOr base.phone (ldStr ld (fun r => r.phone)))) ∧
    ((enrichProfileWithDetailsHttp "https://www.justia.com/lawyers/pat-quinn-3"
      "profile markup" ({} : DetailView)
      { name := "Pat Quinn", phone := "555-0100" }).phone = "555-0100") := by
  refine ⟨?_, ?_, ?_, ?_, by decide⟩
  · intro u html d base h
    rcases h with h | h
    · simp [enrichProfileWithDetailsHttp, h]
    · simp [enrichProfileWithDetailsHttp, h]
  · intro u html d base e herr
    by_cases h1 : html = ""
    · simp [enrichProfileWithDetailsHttp, h1]
    · cases h2 : isBlockedHtmlMain html
      · simp [enrichProfileWithDetailsHttp, h1, h2, herr]
      · simp [enrichProfileWithDetailsHttp, h1, h2]
  · intro u html d base
    by_cases h1 : html = ""
    · have he : enrichProfileWithDetailsHttp u html d base = base := by
        simp [enrichProfileWithDetailsHttp, h1]
      rw [he]
      exact ⟨fun h => h, fun h => h, fun h => h, fun h => h, fun h => h, fun h => h,
        fun h => h, fun h => h, fun h => h, fun h => h, fun h => h⟩
    · cases h2 : isBlockedHtmlMain html
      · rcases hld : extractLawyersFromJsonLdHtml d.ldScripts u with e | lds
        · have he : enrichProfileWithDetailsHttp u html d base = base := by
            simp [enrichProfileWithDetailsHttp, h1, h2, hld]
          rw [he]
          exact ⟨fun h => h, fun h => h, fun h => h, fun h => h, fun h => h, fun h => h,
            fun h => h, fun h => h, fun h => h, fun h => h, fun h => h⟩
        · rw [enrichHttp_eq_merge u html d base h1 h2 lds hld]
          have H := enrichMerge_no_degrade u d base lds.head?
          exact ⟨H.1, H.2.1, H.2.2.1, H.2.2.2.1, H.2.2.2.2.1, H.2.2.2.2.2.1,
            H.2.2.2.2.2.2.1, H.2.2.2.2.2.2.2.1, H.2.2.2.2.2.2.2.2.1,
            H.2.2.2.2.2.2.2.2.2.1, H.2.2.2.2.2.2.2.2.2.2.1⟩
      · have he : enrichProfileWithDetailsHttp u html d base = base := by
          simp [enrichProfileWithDetailsHttp, h1, h2]
        rw [he]
        exact ⟨fun h => h, fun h => h, fun h => h, fun h => h, fun h => h, fun h => h,
          fun h => h, fun h => h, fun h => h, fun h => h, fun h => h⟩
  · intro u d base ld
    simp only [enrichMerge]
    exact strOr_fold (jsTrim d.telText) (jsTrim (removeFirst d.telHref "tel:"))
      (jsTrim d.telItemprop) base.phone (ldStr ld (fun r => r.phone))

/-- Witness for `c6_enrichment` at concrete inputs. -/
theorem c6_enrichment_witness :
    enrichProfileWithDetailsHttp "https://www.justia.com/lawyers/pat-quinn-3" ""
      ({} : DetailView) c6base = c6base ∧
    ((enrichProfileWithDetailsHttp "https://www.justia.com/lawyers/pat-quinn-3"
      "profile markup" c6detail c6base).phone = "" → c6base.phone = "") ∧
    (enrichMerge "https://www.justia.com/lawyers/pat-quinn-3" c6detail c6base none).phone =
      strOr (strOr (jsTrim c6detail.telText)
        (strOr (jsTrim (removeFirst c6detail.telHref "tel:")) (jsTrim c6detail.telItemprop)))
        (strOr c6base.phone (ldStr none (fun r => r.phone))) := by
  refine ⟨?_, ?_, ?_⟩
  · exact c6_enrichment.1 "https://www.justia.com/lawyers/pat-quinn-3" "" {} c6base
      (Or.inl rfl)
  · exact (c6_enrichment.2.2.1 "https://www.justia.com/lawyers/pat-quinn-3"
      "profile markup" c6detail c6base).1
  · exact c6_enrichment.2.2.2.1 "https://www.justia.com/lawyers/pat-quinn-3"
      c6detail c6base none

/-- URL used by the C2 counterexample. -/
def c2u : String := "https://www.justia.com/lawyers/texas"

/-- A listing page whose status classifies as blocked in main.js. -/
def c2blockedPage : Page := { statusCode := 403, body := "listing markup" }

/-- C2 counterexample: in the main.js CheerioCrawler run (cited by the
claim), a blocked classification does NOT switch to a rendered transport —
the handler retires the session and throws while `retryCount < 2`, so the
crawlee collaborator re-fetches the SAME URL with the SAME lightweight
transport; at `retryCount = 2` the handler processes the blocked page.  On
an always-blocked URL all three fetches after (and including) the first
blocked classification are lightweight, refuting "for every fetch after
that first blocked classification the rendered transport is used". -/
theorem c2_counterexample :
    (runMainGo (fun _ => c2blockedPage) 50 5 9 c2u 0 {}).trace =
      [⟨c2u, .lightweight, true⟩, ⟨c2u, .lightweight, true⟩, ⟨c2u, .lightweight, true⟩] ∧
    Mode.lightweight ≠ Mode.rendered := by
  decide

/-- Helper: every fetch of the browser fallback is rendered and never
classified blocked (the fallback does not run the detector). -/
theorem runFallbackEvents_rendered (renv : String → RenderView) (ml : Nat) :
    ∀ (cap : Nat) (u : String) (seen : List String),
      ∀ e ∈ runFallbackEvents renv ml cap u seen, e.mode = .rendered ∧ e.blocked = false := by
  intro cap
  induction cap with
  | zero =>
    intro u seen e he
    simp [runFallbackEvents] at he
  | succ cap ih =>
    intro u seen e he
    simp only [runFallbackEvents] at he
    split_ifs at he
    all_goals
      rcases List.mem_cons.mp he with he2 | he2
      · subst he2
        exact ⟨rfl, rfl⟩
      · first
        | simp at he2
        | exact ih _ _ e he2

/-- Helper: with a positive request cap, the browser fallback's first fetch
is the start URL under the rendered transport. -/
theorem runFallbackEvents_head (renv : String → RenderView) (ml : Nat)
    (cap : Nat) (u : String) (seen : List String) (hcap : 0 < cap) :
    ∃ rest, runFallbackEvents renv ml cap u seen = ⟨u, .rendered, false⟩ :: rest := by
  cases cap with
  | zero => omega
  | succ cap =>
    simp only [runFallbackEvents]
    split_ifs
    all_goals first
      | exact ⟨[], rfl⟩
      | exact ⟨_, rfl⟩

/-- C2 as amended: the part_001 sequential run implements one-way
escalation — the run starts on the lightweight transport, and once a fetch
is classified blocked, every subsequent fetch of the run uses the rendered
transport, the first of them re-fetching the very URL that was blocked;
the run never returns to lightweight fetching.  (In the main.js
CheerioCrawler variant there is no rendered transport at all: a blocked
classification retries the same URL with the lightweight transport, see
the counterexample.) -/
theorem c2_escalation_one_way :
    (∀ (env : String → LoopView) (renv : String → RenderView) (ml mp fuel : Nat)
       (u : String) (pp tot : Nat) (seen : List String) (e : Event),
      (runLoopEvents env renv ml mp fuel u pp tot seen).head? = some e →
      e.mode = .lightweight) ∧
    (∀ (env : String → LoopView) (renv : String → RenderView) (ml mp fuel : Nat)
       (u : String) (pp tot : Nat) (seen : List String)
       (pre : List Event) (e : Event) (post : List Event),
      runLoopEvents env renv ml mp fuel u pp tot seen = pre ++ e :: post →
      e.blocked = true →
      (∀ f ∈ post, f.mode = .rendered) ∧
      (∃ rest, post = ⟨e.url, .rendered, false⟩ :: rest)) := by
  constructor
  · intro env renv ml mp fuel u pp tot seen e hh
    match fuel with
    | 0 => simp [runLoopEvents] at hh
    | fuel+1 =>
      simp only [runLoopEvents] at hh
      split_ifs at hh <;> simp_all <;> rw [← hh]
  · intro env renv ml mp fuel
    induction fuel with
    | zero =>
      intro u pp tot seen pre e post htr hb
      rw [show runLoopEvents env renv ml mp 0 u pp tot seen = [] from rfl] at htr
      exact absurd htr (by simp)
    | succ fuel ih =>
      intro u pp tot seen pre e post htr hb
      simp only [runLoopEvents] at htr
      split_ifs at htr with h1 h2 h3 h4 h5
      · exact absurd htr (by simp)
      · exact absurd htr (by simp)
      · -- blocked branch: the trace is the blocked event followed by the fallback
        have hcap : 0 < min 20 (max 1 (jsOrNat (remainingCap mp (pp + 1)) 5)) :=
          lt_min_iff.mpr ⟨by norm_num,
            lt_of_lt_of_le Nat.one_pos (le_max_left 1 _)⟩
        rcases pre with _ | ⟨p, pre'⟩
        · simp only [List.nil_append] at htr
          cases htr
          refine ⟨fun f hf => (runFallbackEvents_rendered renv _ _ _ _ f hf).1, ?_⟩
          exact runFallbackEvents_head renv _ _ u [] hcap
        · rw [List.cons_append] at htr
          injection htr with hp hrest
          have hmem : e ∈ runFallbackEvents renv (remainingCap ml tot)
              (min 20 (max 1 (jsOrNat (remainingCap mp (pp + 1)) 5))) u [] := by
            rw [hrest]
            simp
          have hbl := (runFallbackEvents_rendered renv _ _ _ _ e hmem).2
          rw [hbl] at hb
          cases hb
      all_goals
        rcases pre with _ | ⟨p, pre'⟩
        · simp only [List.nil_append] at htr
          cases htr
          simp at hb
        · rw [List.cons_append] at htr
          injection htr with hp hrest
          first
          | exact absurd hrest.symm (by simp)
          | exact ih _ _ _ _ pre' e post hrest hb

/-- Environment whose every lightweight fetch is blocked (HTTP 403). -/
def c2envB : String → LoopView := fun _ => { fetch := { statusCode := 403, body := "x" } }

/-- Rendered environment with no records and no next page. -/
def c2renvB : String → RenderView := fun _ => {}

/-- Witness for `c2_escalation_one_way` on a concrete blocked run, whose
trace is the blocked lightweight fetch followed by one rendered fetch of
the same URL. -/
theorem c2_escalation_one_way_witness :
    Event.mode ⟨c2u, .lightweight, true⟩ = .lightweight ∧
    ((∀ f ∈ ([⟨c2u, .rendered, false⟩] : List Event), f.mode = .rendered) ∧
     (∃ rest, ([⟨c2u, .rendered, false⟩] : List Event) =
       ⟨Event.url ⟨c2u, .lightweight, true⟩, .rendered, false⟩ :: rest)) := by
  constructor
  · exact c2_escalation_one_way.1 c2envB c2renvB 50 5 9 c2u 0 0 []
      ⟨c2u, .lightweight, true⟩ (by decide)
  · exact c2_escalation_one_way.2 c2envB c2renvB 50 5 9 c2u 0 0 [] []
      ⟨c2u, .lightweight, true⟩ [⟨c2u, .rendered, false⟩] (by decide) (by decide)

/-- C9 counterexample: the `walk` inside main.js `extractLawyersFromApiPayload`
(cited by the claim) is native recursion with NO visited set, so on a
self-referential object graph it never terminates: on `cyclicStore` (an
object whose field points back at itself) it exhausts EVERY finite step
budget.  The claim's "traverses via an explicit work list with a
visited-set" is therefore false of this cited walk. -/
theorem c9_counterexample :
    walkMainDivergesOn cyclicStore "https://www.justia.com/lawyers/texas" (.ref 0) := by
  intro fuel
  induction fuel using Nat.strong_induction_on with
  | _ fuel ih =>
    match fuel with
    | 0 => rfl
    | 1 => decide
    | (f+2) =>
      have h := ih f (by omega)
      simp only [cyclicStore] at h
      simp [walkMainG, walkMainGVals, cyclicStore, gDeref, gTruthy, nodeProp,
        gPushCandidate]
      try rw [if_neg (by decide)]
      rw [h]

/-- Visiting a fresh slot moves its child count out of the unvisited sum. -/
theorem sum_filter_drop (cc : Nat → Nat) (id : Nat) :
    ∀ (l : List Nat), l.Nodup → id ∈ l → ∀ (vis : List Nat), id ∉ vis →
      ((l.filter (fun i => i ∉ vis)).map cc).sum =
        cc id + ((l.filter (fun i => i ∉ (id :: vis))).map cc).sum := by
  intro l
  induction l with
  | nil => intro _ h; cases h
  | cons x xs ih =>
    intro hnd hmem vis hnv
    have hx : x ∉ xs := (List.nodup_cons.mp hnd).1
    have hnd' : xs.Nodup := (List.nodup_cons.mp hnd).2
    by_cases hxid : x = id
    · subst hxid
      have hrest : xs.filter (fun i => decide (i ∉ x :: vis)) =
          xs.filter (fun i => decide (i ∉ vis)) := by
        apply List.filter_congr
        intro y hy
        have hne : y ≠ x := fun hEq => hx (hEq ▸ hy)
        simp [List.mem_cons, hne]
      rw [List.filter_cons, List.filter_cons, if_pos (decide_eq_true hnv),
        if_neg (by simp), hrest]
      simp [List.map_cons, List.sum_cons]
    · have hmem' : id ∈ xs := by
        rcases List.mem_cons.mp hmem with h | h
        · exact absurd h.symm hxid
        · exact h
      have hrec := ih hnd' hmem' vis hnv
      by_cases hxv : x ∈ vis
      · have hx2 : x ∈ id :: vis := List.mem_cons_of_mem _ hxv
        rw [List.filter_cons, List.filter_cons, if_neg (by simp [hxv]),
          if_neg (by simp [hx2])]
        exact hrec
      · have hx2 : x ∉ id :: vis := by simp [List.mem_cons, hxv, hxid]
        rw [List.filter_cons, List.filter_cons, if_pos (decide_eq_true hxv),
          if_pos (decide_eq_true hx2)]
        simp only [List.map_cons, List.sum_cons]
        omega

/-- Visiting a fresh in-range slot splits its children out of `slotSum`. -/
theorem slotSum_split (store : GStore) (id : Nat) (visited : List Nat)
    (hlt : id < store.length) (hnv : id ∉ visited) :
    slotSum store visited = gChildCount store id + slotSum store (id :: visited) := by
  simp only [slotSum]
  exact sum_filter_drop (gChildCount store) id (List.range store.length)
    (List.nodup_range _) (List.mem_range.mpr hlt) visited hnv

/-- The worklist loop finishes within any fuel exceeding `walkMeasure`: each
iteration either pops without visiting (stack shrinks, `slotSum` unchanged)
or visits a fresh node (its children move from `slotSum` onto the stack and
one extra stack entry is consumed). -/
theorem walkFuel_sufficient (store : GStore) (pageUrl : String) :
    ∀ (fuel : Nat) (stack : List GVal) (visited : List Nat) (results : List Record),
      walkMeasure store stack visited < fuel →
      (extractLawyersFromJsonObjectF store pageUrl fuel stack visited results).isSome
        = true := by
  intro fuel
  induction fuel with
  | zero => intro stack visited results h; exact absurd h (Nat.not_lt_zero _)
  | succ fuel ih =>
    intro stack visited results h
    match stack with
    | [] => rfl
    | v :: rest =>
      have hmeas : rest.length + 1 + slotSum store visited < fuel + 1 := by
        simpa [walkMeasure, Nat.add_comm, Nat.add_left_comm] using h
      rcases v with _ | _ | b | n | s | id
      case undef =>
        simp only [extractLawyersFromJsonObjectF]
        exact ih rest visited results (by simp only [walkMeasure]; omega)
      case null =>
        simp only [extractLawyersFromJsonObjectF]
        exact ih rest visited results (by simp only [walkMeasure]; omega)
      case bool =>
        simp only [extractLawyersFromJsonObjectF]
        exact ih rest visited results (by simp only [walkMeasure]; omega)
      case num =>
        simp only [extractLawyersFromJsonObjectF]
        exact ih rest visited results (by simp only [walkMeasure]; omega)
      case str =>
        simp only [extractLawyersFromJsonObjectF]
        exact ih rest visited results (by simp only [walkMeasure]; omega)
      case ref =>
        simp only [extractLawyersFromJsonObjectF]
        by_cases hvis : id ∈ visited
        · rw [if_pos hvis]
          exact ih rest visited results (by simp only [walkMeasure]; omega)
        · rw [if_neg hvis]
          rcases hnode : store[id]? with _ | node
          · exact ih rest visited results (by simp only [walkMeasure]; omega)
          · have hlt : id < store.length := by
              by_contra hge
              push_neg at hge
              rw [List.getElem?_eq_none hge] at hnode
              exact Option.noConfusion hnode
            have hsplit := slotSum_split store id visited hlt hvis
            have hcc : gChildCount store id = (childRefs node).length := by
              simp [gChildCount, hnode]
            exact ih _ _ _ (by
              simp only [walkMeasure, List.length_append, List.length_reverse]
              omega)

/-- C9 (corrected): the walk the claim cites in main.js is plain recursion
with no visited set and no work list, and it diverges on cyclic data (see
the counterexample theorem).  The worklist-with-visited-set traversal the
claim describes is `extractLawyersFromJsonObject` of src/unnamed/part_001
(lines 73-142), and of that function the claimed properties do hold:
(1) the traversal terminates on every object graph — cyclic ones included —
within the stack-plus-unvisited-children fuel bound; (2) an element with
neither a truthy name nor a resolvable profile URL contributes no record;
(3) on the concrete self-referential store the walk terminates and returns
the empty list. -/
theorem c9_worklist_walk :
    (∀ (store : GStore) (root : GVal) (u : String),
      (extractLawyersFromJsonObject store root u).isSome = true) ∧
    (∀ (store : GStore) (u : String) (item : GVal),
      gTruthy (((gPropV store item "name").gOr (gPropV store item "fullName")).gOr
        (gPropV store item "title")) = false →
      absoluteUrlG store (((gPropV store item "url").gOr
        (gPropV store item "profileUrl")).gOr (gPropV store item "link")) u = "" →
      gItemRecord store u item = none) ∧
    extractLawyersFromJsonObject cyclicStore (.ref 0)
      "https://www.justia.com/lawyers/texas" = some [] := by
  refine ⟨?_, ?_, ?_⟩
  · intro store root u
    have hs := walkFuel_sufficient store u (walkMeasure store [root] [] + 1) [root] [] []
      (Nat.lt_succ_self _)
    simp only [extractLawyersFromJsonObject]
    rcases hF : extractLawyersFromJsonObjectF store u (walkMeasure store [root] [] + 1)
        [root] [] [] with _ | out
    · rw [hF] at hs; simp at hs
    · rfl
  · intro store u item h1 h2
    simp [gItemRecord, h1, h2]
  · decide

/-- Witness: the claim theorem applied to the self-referential store (the
walk terminates there) and to a bare number item (no record produced). -/
theorem c9_worklist_walk_witness :
    (extractLawyersFromJsonObject cyclicStore (.ref 0)
        "https://www.justia.com/lawyers/texas").isSome = true ∧
    gItemRecord [] "https://www.justia.com/lawyers/texas" (.num 7) = none :=
  ⟨c9_worklist_walk.1 cyclicStore (.ref 0) "https://www.justia.com/lawyers/texas",
   c9_worklist_walk.2.1 [] "https://www.justia.com/lawyers/texas" (.num 7)
     (by decide) (by decide)⟩
